import Mathlib

/-!
# ct2stimer: the orchestrator `main.go`

A shallow embedding of `src/main.go` (package `main` of ct2stimer): the flag
handling of `parseArgs`, the activation routine `reloadSystemd` and the
generation loop of `main`.

Every call that leaves `main.go` (the operating system, the service manager,
the packages `crontab` and `systemd`, `filepath.Join`) is a field of `Env`.
Calls whose answer may depend on what happened before (file system, service
manager) receive the history of the run so far; a run is the list of the calls
it made, with their arguments and results, and the way the process or the
function ended.
-/

namespace Ct2stimer

/-! ## Strings, errors, events -/

/-- A Go `string` is a sequence of bytes; one list element stands for one byte.
All texts `main.go` builds itself are ASCII. -/
abbrev GoString := List Char

/-- A Go `error`, identified with its message. -/
abbrev GoError := GoString

/-- The error of `os.Stat`, with the answer of `os.IsNotExist` on it. -/
structure StatError where
  notExist : Bool
  msg : GoError
  deriving DecidableEq

/-- A Go result pair `(value, error)`. -/
inductive Result (α : Type) where
  | ok (v : α)
  | err (e : GoError)
  deriving DecidableEq

/-- One call that leaves `main.go`, with its arguments and its result. -/
inductive Event where
  | stat (path : GoString) (err : Option StatError)
  | readFile (path : GoString) (res : Result GoString)
  | parse (body : GoString) (err : Option GoError)
  | convert (res : Result GoString)
  | generateService (name command after : GoString) (res : Result GoString)
  | generateTimer (name calendar : GoString) (res : Result GoString)
  | writeFile (path data : GoString) (perm : Nat) (err : Option GoError)
  | newConn (err : Option GoError)
  | reload (err : Option GoError)
  | startUnit (name : GoString) (err : Option GoError)
  | close
  | stderr (msg : GoError)
  deriving DecidableEq

/-- The package-level variable `opts` (lines 14-19). -/
structure Opts where
  after : GoString
  filename : GoString
  outdir : GoString
  reload : Bool
  deriving DecidableEq

/-- Everything `main.go` calls but does not define. `S` is `crontab.Schedule`.
The pure library functions depend on their arguments only; the operating
system and the service manager also see the history of the run. -/
structure Env (S : Type) where
  /-- The constant `systemd.DefaultUnitsDirectory`. -/
  defaultUnitsDirectory : GoString
  /-- The status with which pflag ends the process after printing the usage
  for `--help` or `-h`: 2 in its older releases, 0 in its newer ones. -/
  helpExitCode : Nat
  /-- The field `schedule.Command`. -/
  command : S → GoString
  /-- The method `schedule.ConvertToSystemdCalendar()`. -/
  convertToSystemdCalendar : S → Result GoString
  /-- The method `schedule.SHA256Sum()`. -/
  sha256Sum : S → GoString
  /-- The function `crontab.Parse`. -/
  parse : GoString → Result (List S)
  /-- The function `systemd.GenerateService(name, command, after)`. -/
  generateService : GoString → GoString → GoString → Result GoString
  /-- The function `systemd.GenerateTimer(name, calendar)`. -/
  generateTimer : GoString → GoString → Result GoString
  /-- The function `filepath.Join` on two elements. -/
  join : GoString → GoString → GoString
  /-- The function `os.Stat`; only its error is used. -/
  stat : List Event → GoString → Option StatError
  /-- The function `ioutil.ReadFile`. -/
  readFile : List Event → GoString → Result GoString
  /-- The function `ioutil.WriteFile(path, data, perm)`. -/
  writeFile : List Event → GoString → GoString → Nat → Option GoError
  /-- The function `systemd.NewConn`; only its error matters here. -/
  newConn : List Event → Option GoError
  /-- The method `client.Reload()`. -/
  reload : List Event → Option GoError
  /-- The method `client.StartUnit(name)`. -/
  startUnit : List Event → GoString → Option GoError

/-! ## Runs -/

/-- How a piece of code ends: it returns a value, the process exits with a
status (`os.Exit`), or the Go runtime panics. -/
inductive Outcome (α : Type) where
  | ret (v : α)
  | exit (code : Nat)
  | panic
  deriving DecidableEq

/-- The calls made, oldest first, and the way the code ended. -/
structure Run (α : Type) where
  trace : List Event
  outcome : Outcome α
  deriving DecidableEq

/-- A piece of code: from the history before it to its own run. -/
def Prog (α : Type) : Type := List Event → Run α

/-- Sequencing: the second part runs only when the first returned, and sees
the history extended by the calls of the first. -/
def Prog.bind {α β : Type} (m : Prog α) (f : α → Prog β) : Prog β := fun h =>
  match m h with
  | ⟨t, .ret a⟩ => ⟨t ++ (f a (h ++ t)).trace, (f a (h ++ t)).outcome⟩
  | ⟨t, .exit c⟩ => ⟨t, .exit c⟩
  | ⟨t, .panic⟩ => ⟨t, .panic⟩

instance : Monad Prog where
  pure a := fun _ => ⟨[], .ret a⟩
  bind := Prog.bind

/-- One call: ask the environment, record the call, hand back the answer. -/
def call {α : Type} (ask : List Event → α) (ev : α → Event) : Prog α := fun h =>
  ⟨[ev (ask h)], .ret (ask h)⟩

/-- The call `os.Exit(code)`. -/
def osExit {α : Type} (code : Nat) : Prog α := fun _ => ⟨[], .exit code⟩

/-- A run-time panic of the Go runtime. -/
def goPanic {α : Type} : Prog α := fun _ => ⟨[], .panic⟩

/-- The statement `fmt.Fprintln(os.Stderr, err)`. -/
def eprintln (err : GoError) : Prog Unit := fun _ => ⟨[.stderr err], .ret ()⟩

/-- The pair `fmt.Fprintln(os.Stderr, err); os.Exit(1)` that follows every
failed step of `main`. -/
def die {α : Type} (err : GoError) : Prog α := do
  eprintln err
  osExit 1

/-- The exit status of the process: 0 when `main` returns, the argument of
`os.Exit`, 2 after a panic. -/
def exitCode {α : Type} : Outcome α → Nat
  | .ret _ => 0
  | .exit c => c
  | .panic => 2

/-- The slice expression `s[lo:hi]` on a string: a panic when out of range. -/
def slice (s : GoString) (lo hi : Nat) : Option GoString :=
  if lo ≤ hi ∧ hi ≤ s.length then some ((s.take hi).drop lo) else none

/-! ## The flag set of `parseArgs` (lines 22-29)

`f.Parse(args)` is the third-party library `github.com/spf13/pflag`; what
follows is its documented command-line syntax for the four flags registered
at lines 24-27, with the error handling `flag.ExitOnError` of line 22. -/

/-- The four flags registered at lines 24-27, by flag name. -/
inductive FlagId where
  | after
  | file
  | outdir
  | reload
  deriving DecidableEq

/-- The long names given at lines 24-27. -/
def lookupLong (name : GoString) : Option FlagId :=
  if name = "after".toList then some .after
  else if name = "file".toList then some .file
  else if name = "outdir".toList then some .outdir
  else if name = "reload".toList then some .reload
  else none

/-- The shorthands given at lines 25-26 (`StringVarP`): `-f` and `-o`. -/
def lookupShort (c : Char) : Option FlagId :=
  if c = 'f' then some .file
  else if c = 'o' then some .outdir
  else none

/-- The value a flag takes when it is written without one: `"true"` for the
boolean flag of line 27 (`BoolVar`), none for the string flags. -/
def FlagId.noOptDefVal : FlagId → GoString
  | .reload => "true".toList
  | _ => []

/-- Why pflag rejects a command line. -/
inductive PflagError where
  | help
  | badSyntax (arg : GoString)
  | unknownFlag (name : GoString)
  | unknownShorthand (c : Char)
  | needsArgument (arg : GoString)
  | invalidArgument (value : GoString) (flag : FlagId)
  deriving DecidableEq

/-- The function `strconv.ParseBool`, which reads the value of a boolean flag. -/
def parseBool (s : GoString) : Option Bool :=
  if s ∈ ["1", "t", "T", "TRUE", "true", "True"].map String.toList then some true
  else if s ∈ ["0", "f", "F", "FALSE", "false", "False"].map String.toList then some false
  else none

/-- Setting a flag writes through the pointer it was registered with:
line 24 registers `after` with `&opts.filename`, line 25 `file` with
`&opts.filename`, line 26 `outdir` with `&opts.outdir`, line 27 `reload` with
`&opts.reload`. No flag is registered with `&opts.after`. -/
def setFlag (fl : FlagId) (value : GoString) (o : Opts) : Except PflagError Opts :=
  match fl with
  | .after => .ok { o with filename := value }
  | .file => .ok { o with filename := value }
  | .outdir => .ok { o with outdir := value }
  | .reload =>
    match parseBool value with
    | some b => .ok { o with reload := b }
    | none => .error (.invalidArgument value .reload)

/-- The call `strings.SplitN(name, "=", 2)`: the text before the first `=`
and, when there is one, the text after it. -/
def splitEq (name : GoString) : GoString × Option GoString :=
  (name.takeWhile (fun c => c != '='),
    match name.dropWhile (fun c => c != '=') with
    | [] => none
    | _ :: value => some value)

/-- What one command-line word does to the flag set. -/
inductive Step where
  /-- A positional argument: nothing is set. -/
  | skip
  /-- The word `--`: flag parsing stops. -/
  | stop
  /-- A flag was set from this word alone. -/
  | set (o : Opts)
  /-- A flag was set and took the next word as its value. -/
  | setNext (o : Opts)
  deriving DecidableEq

/-- The flag takes the next word of the command line as its value; without a
next word the command line is rejected. -/
def takeNext (fl : FlagId) (s : GoString) (next : Option GoString) (o : Opts) :
    Except PflagError Step :=
  match next with
  | some value => (setFlag fl value o).map Step.setNext
  | none => .error (.needsArgument s)

/-- A long flag `--name`, `--name=value` or `--name value`; `name` is the word
without its two dashes, `next` the word after it, if any. -/
def parseLongArg (s name : GoString) (next : Option GoString) (o : Opts) :
    Except PflagError Step :=
  if name.head? = some '-' ∨ name.head? = some '=' ∨ name = [] then
    .error (.badSyntax s)
  else
    match lookupLong (splitEq name).1 with
    | none =>
      if (splitEq name).1 = "help".toList then .error .help
      else .error (.unknownFlag (splitEq name).1)
    | some fl =>
      match (splitEq name).2 with
      | some value => (setFlag fl value o).map Step.set
      | none =>
        if fl.noOptDefVal ≠ [] then (setFlag fl fl.noOptDefVal o).map Step.set
        else takeNext fl s next o

/-- A shorthand `-c=value`, `-cvalue` or `-c value`; `c :: rest` is the word
without its dash. Both shorthand flags take a value, so the word holds one
flag only. -/
def parseShortArg (s : GoString) (c : Char) (rest : GoString) (next : Option GoString)
    (o : Opts) : Except PflagError Step :=
  if "test.".toList.isPrefixOf (c :: rest) then .ok .skip
  else
    match lookupShort c with
    | none => if c = 'h' then .error .help else .error (.unknownShorthand c)
    | some fl =>
      match rest with
      | '=' :: v :: value => (setFlag fl (v :: value) o).map Step.set
      | v :: value => (setFlag fl (v :: value) o).map Step.set
      | [] => takeNext fl s next o

/-- One word of the command line. -/
def parseWord (s : GoString) (next : Option GoString) (o : Opts) : Except PflagError Step :=
  match s with
  | ['-', '-'] => .ok .stop
  | '-' :: '-' :: name => parseLongArg s name next o
  | '-' :: c :: rest => parseShortArg s c rest next o
  | _ => .ok .skip

/-- The loop of pflag over the command line, words from left to right (flags
and positional arguments may be mixed). -/
def pflagParse : List GoString → Opts → Except PflagError Opts
  | [], o => .ok o
  | s :: args, o =>
    match parseWord s args.head? o with
    | .error e => .error e
    | .ok .skip => pflagParse args o
    | .ok .stop => .ok o
    | .ok (.set o1) => pflagParse args o1
    | .ok (.setNext o1) =>
      match args with
      | [] => .ok o1
      | _ :: args1 => pflagParse args1 o1

/-- The exit status of `flag.ExitOnError`: 2 for a rejected command line;
after printing the usage for `--help` or `-h`, the status of the release of
pflag in use. -/
def pflagExitCode {S : Type} (E : Env S) : PflagError → Nat
  | .help => E.helpExitCode
  | _ => 2

/-- The variable `opts` after the registrations of lines 24-27: each
registration stores the default through its pointer, `opts.after` keeps the
zero value. -/
def registered {S : Type} (E : Env S) : Opts :=
  { after := [], filename := [], outdir := E.defaultUnitsDirectory, reload := false }

/-! ## `parseArgs` (lines 21-48) -/

/-- The error of line 32. -/
def errNoFile : GoError := "Please specify crontab file.".toList

/-- The error of line 36. -/
def errNoOutdir : GoError := "Please specify directory to save systemd files.".toList

/-- The error of line 41. -/
def errNotExist (outdir : GoString) : GoError := outdir ++ ": directory does not exist".toList

/-- The function `parseArgs`: the new value of `opts` and the error returned.
A rejected command line ends the process inside `f.Parse`. -/
def parseArgs {S : Type} (E : Env S) (args : List GoString) : Prog (Opts × Option GoError) :=
  match pflagParse args (registered E) with
  | .error e => osExit (pflagExitCode E e)
  | .ok o =>
    if o.filename = [] then pure (o, some errNoFile)
    else if o.outdir = [] then pure (o, some errNoOutdir)
    else do
      match ← call (fun h => E.stat h o.outdir) (Event.stat o.outdir) with
      | some e => if e.notExist then pure (o, some (errNotExist o.outdir)) else pure (o, some e.msg)
      | none => pure (o, none)

/-! ## `reloadSystemd` (lines 50-71) -/

/-- The loop of lines 64-68: start the timers in order, stop at the first
error. -/
def startUnits {S : Type} (E : Env S) : List GoString → Prog (Option GoError)
  | [] => pure none
  | timerUnit :: timers => do
    match ← call (fun h => E.startUnit h timerUnit) (Event.startUnit timerUnit) with
    | some err => pure (some err)
    | none => startUnits E timers

/-- The function `reloadSystemd`. The deferred `conn.Close()` runs when the
function returns, not when the process exits at line 54. The constructor
`systemd.NewClient(conn)` of line 58 only wraps the connection and is not
recorded. -/
def reloadSystemd {S : Type} (E : Env S) (timers : List GoString) : Prog (Option GoError) := do
  match ← call E.newConn Event.newConn with
  | some err => die err
  | none =>
    let result ← (do
      match ← call E.reload Event.reload with
      | some err => pure (some err)
      | none => startUnits E timers)
    call (fun _ => ()) (fun _ => Event.close)
    pure result

/-! ## `main` (lines 73-135) -/

/-- The permission bits `0644` of lines 109 and 121. -/
def perm0644 : Nat := 0o644

/-- The body of the loop of lines 93-127 for one schedule: the timer name
appended at line 126. -/
def generateUnit {S : Type} (E : Env S) (o : Opts) (schedule : S) : Prog GoString := do
  match ← call (fun _ => E.convertToSystemdCalendar schedule) Event.convert with
  | .err err => die err
  | .ok calendar =>
    match slice (E.sha256Sum schedule) 0 12 with
    | none => goPanic
    | some digest =>
      let name := "cron-".toList ++ digest
      match ← call (fun _ => E.generateService name (E.command schedule) o.after)
          (Event.generateService name (E.command schedule) o.after) with
      | .err err => die err
      | .ok service =>
        let servicePath := E.join o.outdir (name ++ ".service".toList)
        match ← call (fun h => E.writeFile h servicePath service perm0644)
            (Event.writeFile servicePath service perm0644) with
        | some err => die err
        | none =>
          match ← call (fun _ => E.generateTimer name calendar)
              (Event.generateTimer name calendar) with
          | .err err => die err
          | .ok timer =>
            let timerPath := E.join o.outdir (name ++ ".timer".toList)
            match ← call (fun h => E.writeFile h timerPath timer perm0644)
                (Event.writeFile timerPath timer perm0644) with
            | some err => die err
            | none => pure (name ++ ".timer".toList)

/-- The loop of lines 93-127: `timers` is the list built so far. -/
def generateUnits {S : Type} (E : Env S) (o : Opts) : List S → List GoString → Prog (List GoString)
  | [], timers => pure timers
  | schedule :: schedules, timers => do
    let timer ← generateUnit E o schedule
    generateUnits E o schedules (timers ++ [timer])

/-- Lines 129-134 of `main`: the activation, when `--reload` is on. -/
def activate {S : Type} (E : Env S) (o : Opts) (timers : List GoString) : Prog Unit :=
  if o.reload then do
    match ← reloadSystemd E timers with
    | some err => die err
    | none => pure ()
  else pure ()

/-- The error of a result pair, as recorded for `crontab.Parse`. -/
def Result.error? {α : Type} : Result α → Option GoError
  | .ok _ => none
  | .err e => some e

/-- Lines 79-134 of `main`, after the arguments were accepted. -/
def mainWith {S : Type} (E : Env S) (o : Opts) : Prog Unit := do
  match ← call (fun h => E.readFile h o.filename) (Event.readFile o.filename) with
  | .err err => die err
  | .ok body =>
    match ← call (fun _ => E.parse body) (fun r => Event.parse body r.error?) with
    | .err err => die err
    | .ok schedules =>
      let timers ← generateUnits E o schedules []
      activate E o timers

/-- The function `main` on the arguments `os.Args[1:]`. -/
def main {S : Type} (E : Env S) (args : List GoString) : Prog Unit := do
  match ← parseArgs E args with
  | (_, some err) => die err
  | (o, none) => mainWith E o

/-! ## A test double of the environment

A small environment on which runs can be evaluated: three crontab files, two
directories, a service manager that accepts everything. -/

/-- A schedule of the test double: its command, the result of its conversion
and its digest. -/
structure DemoSchedule where
  command : GoString
  calendar : Result GoString
  digest : GoString
  deriving DecidableEq

/-- The entry `0 0 1 * * /usr/bin/report.sh`. -/
def demoReport : DemoSchedule :=
  { command := "/usr/bin/report.sh".toList
    calendar := .ok "*-*-01 00:00:00".toList
    digest := "3f2a9c0d5e7b1a4688c1d2e3f4a5b6c7d8e9f0a1b2c3d4e5f60718293a4b5c6d".toList }

/-- The entry `*/15 9-17 * * 1-5 /usr/bin/backup.sh`. -/
def demoBackup : DemoSchedule :=
  { command := "/usr/bin/backup.sh".toList
    calendar := .ok "Mon,Tue,Wed,Thu,Fri *-*-* 09,10,11,12,13,14,15,16,17:00,15,30,45:00".toList
    digest := "a41b7c22d90e5f6a7b8c9d0e1f2a3b4c5d6e7f8091a2b3c4d5e6f708192a3b4c".toList }

/-- The entry `0 0 1 * 1 /usr/bin/both.sh`: day of month and day of week are
both restricted, the conversion fails. -/
def demoBoth : DemoSchedule :=
  { command := "/usr/bin/both.sh".toList
    calendar := .err "cannot convert: day of month and day of week are both set".toList
    digest := "5c0e8a1f3b2d4c6e7f8091a2b3c4d5e6f708192a3b4c5d6e7f8091a2b3c4d5e6".toList }

/-- The text of the crontab file `crontab` of the test double. -/
def demoCrontab : GoString :=
  "0 0 1 * * /usr/bin/report.sh\n*/15 9-17 * * 1-5 /usr/bin/backup.sh\n".toList

/-- The text of the crontab file `mixed`: the second entry cannot be
converted. -/
def demoMixed : GoString :=
  "0 0 1 * * /usr/bin/report.sh\n0 0 1 * 1 /usr/bin/both.sh\n*/15 9-17 * * 1-5 /usr/bin/backup.sh\n".toList

/-- The text of the crontab file `broken`: a well-formed line, then a minute
out of its domain. -/
def demoBroken : GoString :=
  "0 0 1 * * /usr/bin/report.sh\n99 0 * * * /bin/true\n".toList

/-- The test double: the directories `/etc/systemd/system` and `/tmp/units`
exist, the files `crontab`, `mixed` and `broken` can be read, every write and
every service-manager call succeeds. -/
def demoEnv : Env DemoSchedule where
  defaultUnitsDirectory := "/etc/systemd/system".toList
  helpExitCode := 2
  command := DemoSchedule.command
  convertToSystemdCalendar := DemoSchedule.calendar
  sha256Sum := DemoSchedule.digest
  parse := fun body =>
    if body = demoCrontab then .ok [demoReport, demoBackup]
    else if body = demoMixed then .ok [demoReport, demoBoth, demoBackup]
    else if body = demoBroken then .err "line 2: minute 99 out of range".toList
    else .ok []
  generateService := fun name command after =>
    if command = [] then .err "command is empty".toList
    else .ok ("[Unit]\nDescription=".toList ++ name ++ "\nAfter=".toList ++ after
      ++ "\n[Service]\nType=oneshot\nExecStart=".toList ++ command)
  generateTimer := fun name calendar =>
    .ok ("[Unit]\nDescription=".toList ++ name ++ "\n[Timer]\nOnCalendar=".toList ++ calendar
      ++ "\n[Install]\nWantedBy=timers.target".toList)
  join := fun dir file => dir ++ '/' :: file
  stat := fun _ path =>
    if path = "/etc/systemd/system".toList ∨ path = "/tmp/units".toList then none
    else some ⟨true, "stat: no such file or directory".toList⟩
  readFile := fun _ path =>
    if path = "crontab".toList then .ok demoCrontab
    else if path = "mixed".toList then .ok demoMixed
    else if path = "broken".toList then .ok demoBroken
    else .err "open: no such file or directory".toList
  writeFile := fun _ _ _ _ => none
  newConn := fun _ => none
  reload := fun _ => none
  startUnit := fun _ _ => none

/-- The test double with a service manager that refuses to start the timer
`cron-a41b7c22d90e.timer`. -/
def demoStartFails : Env DemoSchedule :=
  { demoEnv with
    startUnit := fun _ name =>
      if name = "cron-a41b7c22d90e.timer".toList then some "unit not found".toList else none }

/-- The test double with a service manager whose `Reload` fails. -/
def demoReloadFails : Env DemoSchedule :=
  { demoEnv with reload := fun _ => some "reload refused".toList }

/-- The test double with a full disk: every write fails. -/
def demoDiskFull : Env DemoSchedule :=
  { demoEnv with writeFile := fun _ _ _ _ => some "no space left on device".toList }

/-! ## Reading a trace -/

/-- The event is a call of `client.Reload()`. -/
def Event.isReload : Event → Bool
  | .reload _ => true
  | _ => false

/-- The event is a call of `client.StartUnit`. -/
def Event.isStartUnit : Event → Bool
  | .startUnit _ _ => true
  | _ => false

/-- The event touches the service manager: opening or closing the
connection, `Reload`, `StartUnit`. -/
def Event.isManager : Event → Bool
  | .newConn _ => true
  | .reload _ => true
  | .startUnit _ _ => true
  | .close => true
  | _ => false

/-- The event is a call of `systemd.NewConn`, the first statement of
`reloadSystemd`. -/
def Event.isNewConn : Event → Bool
  | .newConn _ => true
  | _ => false

/-- The event is a call of `ioutil.WriteFile`. -/
def Event.isWrite : Event → Bool
  | .writeFile _ _ _ _ => true
  | _ => false

/-- The event is a call of the loop of lines 93-127: a conversion, a
generation or a write. -/
def Event.isGeneration : Event → Bool
  | .convert _ => true
  | .generateService _ _ _ _ => true
  | .generateTimer _ _ _ => true
  | .writeFile _ _ _ _ => true
  | _ => false

/-- The call reported an error: `os.Stat`, `ioutil.ReadFile`,
`crontab.Parse`, `ConvertToSystemdCalendar`, `GenerateService`,
`GenerateTimer`, `ioutil.WriteFile`, `NewConn`, `Reload` or `StartUnit`. -/
def Event.failed : Event → Bool
  | .stat _ (some _) => true
  | .readFile _ (.err _) => true
  | .parse _ (some _) => true
  | .convert (.err _) => true
  | .generateService _ _ _ (.err _) => true
  | .generateTimer _ _ (.err _) => true
  | .writeFile _ _ _ (some _) => true
  | .newConn (some _) => true
  | .reload (some _) => true
  | .startUnit _ (some _) => true
  | _ => false

/-- Path and data of a call of `ioutil.WriteFile` that reported no error. -/
def Event.written? : Event → Option (GoString × GoString)
  | .writeFile path data _ none => some (path, data)
  | _ => none

/-- The files written in a run, oldest first: path and data of every call of
`ioutil.WriteFile` that reported no error. -/
def filesWritten (trace : List Event) : List (GoString × GoString) :=
  trace.filterMap Event.written?

/-- The path of a call of `ioutil.WriteFile`, whatever its result. -/
def Event.writePath? : Event → Option GoString
  | .writeFile path _ _ _ => some path
  | _ => none

/-- The paths of all calls of `ioutil.WriteFile` in a run, oldest first. -/
def writeCalls (trace : List Event) : List GoString :=
  trace.filterMap Event.writePath?

/-- The files known to exist after a call, given those known to exist before
it: a successful `WriteFile` adds its path. None of the calls `main.go` makes
removes a file, so no call takes a path away. -/
def Event.keeps (known : GoString → Bool) : Event → GoString → Bool
  | .writeFile path _ _ none => fun p => p == path || known p
  | _ => known

/-- The files known to exist after a run. -/
def existsAfter (known : GoString → Bool) (trace : List Event) : GoString → Bool :=
  trace.foldl Event.keeps known

/-- The unit name of line 100 when the slice is in range: `cron-` and the
first 12 bytes of the digest. -/
def unitName {S : Type} (E : Env S) (schedule : S) : GoString :=
  "cron-".toList ++ (E.sha256Sum schedule).take 12

/-- The name of the timer unit of a schedule, as appended at line 126. -/
def timerUnit {S : Type} (E : Env S) (schedule : S) : GoString :=
  unitName E schedule ++ ".timer".toList

/-- The path of the service file of a schedule (line 108). -/
def servicePath {S : Type} (E : Env S) (o : Opts) (schedule : S) : GoString :=
  E.join o.outdir (unitName E schedule ++ ".service".toList)

/-- The path of the timer file of a schedule (line 120). -/
def timerPath {S : Type} (E : Env S) (o : Opts) (schedule : S) : GoString :=
  E.join o.outdir (unitName E schedule ++ ".timer".toList)

/-- The two files of a schedule whose conversion and generation succeed: the
service file with the text of `GenerateService`, then the timer file with the
text of `GenerateTimer`. -/
def unitFiles {S : Type} (E : Env S) (o : Opts) (schedule : S) : List (GoString × GoString) :=
  match E.convertToSystemdCalendar schedule,
      E.generateService (unitName E schedule) (E.command schedule) o.after with
  | .ok calendar, .ok service =>
    match E.generateTimer (unitName E schedule) calendar with
    | .ok timer => [(servicePath E o schedule, service), (timerPath E o schedule, timer)]
    | .err _ => []
  | _, _ => []

/-- The calls every run that gets as far as the loop starts with: the check of
the output directory, the reading of the crontab file, its parsing. -/
def prelude (o : Opts) (body : GoString) : List Event :=
  [.stat o.outdir none, .readFile o.filename (.ok body), .parse body none]

/-- The run of `main` on `args` gets as far as the loop of lines 93-127: pflag
accepts the arguments and leaves the options `o`, `parseArgs` returns nil, the
crontab file is read as `body`, and `crontab.Parse` returns `schedules`. -/
structure ReachesLoop {S : Type} (E : Env S) (args : List GoString) (o : Opts)
    (body : GoString) (schedules : List S) : Prop where
  flags : pflagParse args (registered E) = .ok o
  file : o.filename ≠ []
  outdir : o.outdir ≠ []
  stat : E.stat [] o.outdir = none
  read : E.readFile [.stat o.outdir none] o.filename = .ok body
  parsed : E.parse body = .ok schedules

/-! # Theorems -/

/-! ## Running the combinators -/

theorem pure_run {α : Type} (a : α) (h : List Event) :
    (pure a : Prog α) h = ⟨[], .ret a⟩ := rfl

theorem bind_run {α β : Type} (m : Prog α) (f : α → Prog β) (h : List Event) :
    (m >>= f) h = Prog.bind m f h := rfl

theorem call_bind_run {α β : Type} (ask : List Event → α) (ev : α → Event) (f : α → Prog β)
    (h : List Event) :
    (call ask ev >>= f) h
      = ⟨ev (ask h) :: (f (ask h) (h ++ [ev (ask h)])).trace,
          (f (ask h) (h ++ [ev (ask h)])).outcome⟩ := rfl

theorem die_run {α : Type} (err : GoError) (h : List Event) :
    (die err : Prog α) h = ⟨[.stderr err], .exit 1⟩ := rfl

/-- The calls of the first part of a sequence come first. -/
theorem bind_trace {α β : Type} (m : Prog α) (f : α → Prog β) (h : List Event) :
    ∃ rest, (Prog.bind m f h).trace = (m h).trace ++ rest := by
  unfold Prog.bind
  rcases hm : m h with ⟨t, a | c | _⟩
  · exact ⟨_, rfl⟩
  · exact ⟨[], by simp⟩
  · exact ⟨[], by simp⟩

theorem bind_of_ret {α β : Type} (m : Prog α) (f : α → Prog β) (h : List Event) (a : α)
    (hm : (m h).outcome = .ret a) :
    Prog.bind m f h = ⟨(m h).trace ++ (f a (h ++ (m h).trace)).trace,
      (f a (h ++ (m h).trace)).outcome⟩ := by
  unfold Prog.bind
  rcases hmh : m h with ⟨t, out⟩
  rw [hmh] at hm
  simp only at hm
  subst hm
  rfl

theorem bind_of_exit {α β : Type} (m : Prog α) (f : α → Prog β) (h : List Event) (c : Nat)
    (hm : (m h).outcome = .exit c) :
    Prog.bind m f h = ⟨(m h).trace, .exit c⟩ := by
  unfold Prog.bind
  rcases hmh : m h with ⟨t, out⟩
  rw [hmh] at hm
  simp only at hm
  subst hm
  rfl

/-- Every call of a sequence is a call of its first or of its second part. -/
theorem bind_mem {α β : Type} (m : Prog α) (f : α → Prog β) (h : List Event) (ev : Event)
    (hev : ev ∈ (Prog.bind m f h).trace) :
    ev ∈ (m h).trace ∨ ∃ a, ev ∈ (f a (h ++ (m h).trace)).trace := by
  unfold Prog.bind at hev
  rcases hm : m h with ⟨t, a | c | _⟩ <;> rw [hm] at hev <;> simp only at hev
  · simp only [List.mem_append] at hev
    rcases hev with hev | hev
    · exact Or.inl hev
    · exact Or.inr ⟨a, hev⟩
  · exact Or.inl hev
  · exact Or.inl hev

/-! ## The flag set -/

/-- Only the flag `reload` writes `opts.reload`, and no flag writes
`opts.after`. -/
theorem setFlag_frame (fl : FlagId) (value : GoString) (o o1 : Opts)
    (hset : setFlag fl value o = .ok o1) :
    o1.after = o.after ∧ (fl ≠ .reload → o1.reload = o.reload) := by
  cases fl with
  | after => simp [setFlag] at hset; subst hset; simp
  | file => simp [setFlag] at hset; subst hset; simp
  | outdir => simp [setFlag] at hset; subst hset; simp
  | reload =>
    simp only [setFlag] at hset
    split at hset
    · simp at hset; subst hset; simp
    · simp at hset

theorem lookupLong_reload (name : GoString) (h : lookupLong name = some .reload) :
    name = "reload".toList := by
  unfold lookupLong at h
  split at h
  · simp at h
  · split at h
    · simp at h
    · split at h
      · simp at h
      · split at h
        · assumption
        · simp at h

theorem lookupShort_ne_reload (c : Char) (fl : FlagId) (h : lookupShort c = some fl) :
    fl ≠ .reload := by
  unfold lookupShort at h
  split at h
  · simp at h; subst h; simp
  · split at h
    · simp at h; subst h; simp
    · simp at h

theorem except_map_ok {ε α β : Type} (x : Except ε α) (f : α → β) (y : β)
    (h : x.map f = .ok y) : ∃ v, x = .ok v ∧ f v = y := by
  cases x with
  | error e => simp [Except.map] at h
  | ok v => exact ⟨v, rfl, by simpa [Except.map] using h⟩

/-- A word that sets the switch `reload` starts with `--reload`. -/
theorem parseWord_frame (s : GoString) (next : Option GoString) (o o1 : Opts)
    (hw : parseWord s next o = .ok (.set o1) ∨ parseWord s next o = .ok (.setNext o1)) :
    o1.after = o.after ∧ (¬ "--reload".toList <+: s → o1.reload = o.reload) := by
  unfold parseWord at hw
  split at hw
  · simp at hw
  · rename_i name hne
    unfold parseLongArg at hw
    split at hw
    · simp at hw
    · split at hw
      · split at hw <;> simp at hw
      · rename_i fl hfl
        have key : ∀ value, setFlag fl value o = .ok o1 →
            o1.after = o.after ∧ (¬ "--reload".toList <+: '-' :: '-' :: name → o1.reload = o.reload) := by
          intro value hset
          obtain ⟨h1, h2⟩ := setFlag_frame fl value o o1 hset
          refine ⟨h1, fun hp => h2 ?_⟩
          intro hfl2
          subst hfl2
          apply hp
          have hn := lookupLong_reload _ hfl
          have : (splitEq name).1 <+: name := List.takeWhile_prefix _
          rw [hn] at this
          obtain ⟨t, ht⟩ := this
          exact ⟨t, by rw [← ht]; rfl⟩
        have fin : ∀ (value : GoString) (f : Opts → Step), (f = Step.set ∨ f = Step.setNext) →
            ((setFlag fl value o).map f = .ok (.set o1) ∨
              (setFlag fl value o).map f = .ok (.setNext o1)) → setFlag fl value o = .ok o1 := by
          intro value f hf hm
          rcases hm with hm | hm <;> obtain ⟨v, hv, hfv⟩ := except_map_ok _ _ _ hm <;>
            rcases hf with rfl | rfl <;> simp at hfv <;> subst hfv <;> exact hv
        split at hw
        · exact key _ (fin _ _ (Or.inl rfl) hw)
        · split at hw
          · exact key _ (fin _ _ (Or.inl rfl) hw)
          · unfold takeNext at hw
            split at hw
            · exact key _ (fin _ _ (Or.inr rfl) hw)
            · simp at hw
  · rename_i c rest hne1 hne2
    unfold parseShortArg at hw
    split at hw
    · simp at hw
    · split at hw
      · split at hw <;> simp at hw
      · rename_i fl hfl
        have hnr := lookupShort_ne_reload c fl hfl
        have fin : ∀ (value : GoString) (f : Opts → Step), (f = Step.set ∨ f = Step.setNext) →
            ((setFlag fl value o).map f = .ok (.set o1) ∨
              (setFlag fl value o).map f = .ok (.setNext o1)) →
            o1.after = o.after ∧ (¬ "--reload".toList <+: '-' :: c :: rest → o1.reload = o.reload) := by
          intro value f hf hm
          have hset : setFlag fl value o = .ok o1 := by
            rcases hm with hm | hm <;> obtain ⟨v, hv, hfv⟩ := except_map_ok _ _ _ hm <;>
              rcases hf with rfl | rfl <;> simp at hfv <;> subst hfv <;> exact hv
          obtain ⟨h1, h2⟩ := setFlag_frame fl value o o1 hset
          exact ⟨h1, fun _ => h2 hnr⟩
        split at hw
        · exact fin _ _ (Or.inl rfl) hw
        · exact fin _ _ (Or.inl rfl) hw
        · unfold takeNext at hw
          split at hw
          · exact fin _ _ (Or.inr rfl) hw
          · simp at hw
  · simp at hw

/-- Parsing the flags never writes `opts.after`, and leaves `opts.reload` off
unless some word starts with `--reload`. -/
theorem pflagParse_frame (args : List GoString) (o0 o : Opts)
    (hp : pflagParse args o0 = .ok o) :
    o.after = o0.after ∧
      ((∀ a ∈ args, ¬ "--reload".toList <+: a) → o.reload = o0.reload) := by
  induction args, o0 using pflagParse.induct with
  | case1 o0 => simp [pflagParse] at hp; subst hp; simp
  | case2 s args o0 e hw => simp [pflagParse, hw] at hp
  | case3 s args o0 hw ih =>
    simp only [pflagParse, hw] at hp
    obtain ⟨h1, h2⟩ := ih hp
    exact ⟨h1, fun ha => h2 (fun a ha1 => ha a (List.mem_cons_of_mem _ ha1))⟩
  | case4 s args o0 hw =>
    simp [pflagParse, hw] at hp; subst hp; simp
  | case5 s args o0 o1 hw ih =>
    simp only [pflagParse, hw] at hp
    obtain ⟨h1, h2⟩ := ih hp
    obtain ⟨f1, f2⟩ := parseWord_frame s _ o0 o1 (Or.inl hw)
    refine ⟨by rw [h1, f1], fun ha => ?_⟩
    rw [h2 (fun a ha1 => ha a (List.mem_cons_of_mem _ ha1)), f2 (ha s (List.mem_cons_self _ _))]
  | case6 s o0 o1 hw =>
    simp only [pflagParse, hw] at hp
    simp at hp
    subst hp
    obtain ⟨f1, f2⟩ := parseWord_frame s _ o0 o1 (Or.inr hw)
    exact ⟨f1, fun ha => f2 (ha s (List.mem_cons_self _ _))⟩
  | case7 s o0 o1 a args1 hw ih =>
    simp only [pflagParse, hw] at hp
    obtain ⟨h1, h2⟩ := ih hp
    obtain ⟨f1, f2⟩ := parseWord_frame s _ o0 o1 (Or.inr hw)
    refine ⟨by rw [h1, f1], fun ha => ?_⟩
    rw [h2 (fun b hb => ha b (by simp [hb])), f2 (ha s (List.mem_cons_self _ _))]

/-- The next word matters to a flag only when the flag takes it as its
value. -/
theorem parseWord_next_cases (s : GoString) (next next1 : Option GoString) (o : Opts) :
    parseWord s next o = parseWord s next1 o ∨
      ∃ fl, parseWord s next o = takeNext fl s next o ∧
        parseWord s next1 o = takeNext fl s next1 o := by
  unfold parseWord
  split
  · exact Or.inl rfl
  · unfold parseLongArg
    split
    · exact Or.inl rfl
    · split
      · exact Or.inl rfl
      · split
        · exact Or.inl rfl
        · split
          · exact Or.inl rfl
          · exact Or.inr ⟨_, rfl, rfl⟩
  · unfold parseShortArg
    split
    · exact Or.inl rfl
    · split
      · exact Or.inl rfl
      · split
        · exact Or.inl rfl
        · exact Or.inl rfl
        · exact Or.inr ⟨_, rfl, rfl⟩
  · exact Or.inl rfl

/-- A word that pflag accepts when it is the last one does the same when
another word follows. -/
theorem parseWord_next (s x : GoString) (o : Opts) (st : Step)
    (hw : parseWord s none o = .ok st) : parseWord s (some x) o = .ok st := by
  rcases parseWord_next_cases s none (some x) o with h | ⟨fl, h1, -⟩
  · rw [← h, hw]
  · rw [h1] at hw
    simp [takeNext] at hw

/-- A flag takes a next word only when there is one. -/
theorem parseWord_none_ne_setNext (s : GoString) (o o1 : Opts) :
    parseWord s none o ≠ .ok (.setNext o1) := by
  intro hw
  unfold parseWord at hw
  split at hw
  · simp at hw
  · unfold parseLongArg at hw
    split at hw
    · simp at hw
    · split at hw
      · split at hw <;> simp at hw
      · split at hw
        · obtain ⟨v, -, hv⟩ := except_map_ok _ _ _ hw
          simp at hv
        · split at hw
          · obtain ⟨v, -, hv⟩ := except_map_ok _ _ _ hw
            simp at hv
          · simp [takeNext] at hw
  · unfold parseShortArg at hw
    split at hw
    · simp at hw
    · split at hw
      · split at hw <;> simp at hw
      · split at hw
        · obtain ⟨v, -, hv⟩ := except_map_ok _ _ _ hw
          simp at hv
        · obtain ⟨v, -, hv⟩ := except_map_ok _ _ _ hw
          simp at hv
        · simp [takeNext] at hw
  · simp at hw

/-- Only the word `--` stops flag parsing. -/
theorem parseWord_stop (s : GoString) (next : Option GoString) (o : Opts)
    (hw : parseWord s next o = .ok .stop) : s = "--".toList := by
  unfold parseWord at hw
  split at hw
  · rfl
  · unfold parseLongArg at hw
    split at hw
    · simp at hw
    · split at hw
      · split at hw <;> simp at hw
      · split at hw
        · obtain ⟨v, -, hv⟩ := except_map_ok _ _ _ hw
          simp at hv
        · split at hw
          · obtain ⟨v, -, hv⟩ := except_map_ok _ _ _ hw
            simp at hv
          · unfold takeNext at hw
            split at hw
            · obtain ⟨v, -, hv⟩ := except_map_ok _ _ _ hw
              simp at hv
            · simp at hw
  · unfold parseShortArg at hw
    split at hw
    · simp at hw
    · split at hw
      · split at hw <;> simp at hw
      · split at hw
        · obtain ⟨v, -, hv⟩ := except_map_ok _ _ _ hw
          simp at hv
        · obtain ⟨v, -, hv⟩ := except_map_ok _ _ _ hw
          simp at hv
        · unfold takeNext at hw
          split at hw
          · obtain ⟨v, -, hv⟩ := except_map_ok _ _ _ hw
            simp at hv
          · simp at hw
  · simp at hw

/-- On a command line that pflag accepts and that does not hold the word
`--`, one more word `--reload` at the end turns the switch on and changes
nothing else. -/
theorem pflagParse_append_reload (args : List GoString) (o0 o : Opts)
    (hp : pflagParse args o0 = .ok o) (hdash : "--".toList ∉ args) :
    pflagParse (args ++ ["--reload".toList]) o0 = .ok { o with reload := true } := by
  induction args, o0 using pflagParse.induct with
  | case1 o0 =>
    simp [pflagParse] at hp
    subst hp
    rfl
  | case2 s args o0 e hw => simp [pflagParse, hw] at hp
  | case3 s args o0 hw ih =>
    simp only [pflagParse, hw] at hp
    have hw1 : parseWord s (args ++ ["--reload".toList]).head? o0 = .ok .skip := by
      cases args with
      | nil => exact parseWord_next s _ o0 _ hw
      | cons a args => exact hw
    simp only [List.cons_append, pflagParse, hw1]
    exact ih hp (fun h => hdash (List.mem_cons_of_mem _ h))
  | case4 s args o0 hw =>
    exfalso
    exact hdash (by rw [parseWord_stop s _ o0 hw]; exact List.mem_cons_self _ _)
  | case5 s args o0 o1 hw ih =>
    simp only [pflagParse, hw] at hp
    have hw1 : parseWord s (args ++ ["--reload".toList]).head? o0 = .ok (.set o1) := by
      cases args with
      | nil => exact parseWord_next s _ o0 _ hw
      | cons a args => exact hw
    simp only [List.cons_append, pflagParse, hw1]
    exact ih hp (fun h => hdash (List.mem_cons_of_mem _ h))
  | case6 s o0 o1 hw =>
    exact absurd hw (parseWord_none_ne_setNext s o0 o1)
  | case7 s o0 o1 a args1 hw ih =>
    simp only [pflagParse, hw] at hp
    have hw1 : parseWord s ((a :: args1) ++ ["--reload".toList]).head? o0 = .ok (.setNext o1) := hw
    simp only [List.cons_append] at hw1 ⊢
    simp only [pflagParse, hw1]
    exact ih hp (fun h => hdash (List.mem_cons_of_mem _ (List.mem_cons_of_mem _ h)))

/-! ## `parseArgs` -/

/-- The four ways `parseArgs` returns, and the exit inside `f.Parse`. -/
theorem parseArgs_run {S : Type} (E : Env S) (args : List GoString) (h : List Event) :
    parseArgs E args h =
      match pflagParse args (registered E) with
      | .error e => ⟨[], .exit (pflagExitCode E e)⟩
      | .ok o =>
        if o.filename = [] then ⟨[], .ret (o, some errNoFile)⟩
        else if o.outdir = [] then ⟨[], .ret (o, some errNoOutdir)⟩
        else
          match E.stat h o.outdir with
          | some e =>
            ⟨[.stat o.outdir (some e)],
              .ret (o, some (if e.notExist then errNotExist o.outdir else e.msg))⟩
          | none => ⟨[.stat o.outdir none], .ret (o, none)⟩ := by
  simp only [parseArgs]
  cases hp : pflagParse args (registered E) with
  | error e => rfl
  | ok o =>
    simp only []
    by_cases hf : o.filename = []
    · simp only [hf, if_true]; rfl
    · simp only [hf, if_false]
      by_cases hd : o.outdir = []
      · simp only [hd, if_true]; rfl
      · simp only [hd, if_false, call_bind_run]
        cases hs : E.stat h o.outdir with
        | some e =>
          simp only []
          by_cases hn : e.notExist = true
          · simp only [hn, if_true]; rfl
          · simp only [hn]; rfl
        | none => rfl

/-! ## `reloadSystemd` -/

theorem startUnits_nil {S : Type} (E : Env S) (h : List Event) :
    startUnits E [] h = ⟨[], .ret none⟩ := rfl

theorem startUnits_cons {S : Type} (E : Env S) (t : GoString) (ts : List GoString)
    (h : List Event) :
    startUnits E (t :: ts) h =
      match E.startUnit h t with
      | some err => ⟨[.startUnit t (some err)], .ret (some err)⟩
      | none =>
        ⟨.startUnit t none :: (startUnits E ts (h ++ [.startUnit t none])).trace,
          (startUnits E ts (h ++ [.startUnit t none])).outcome⟩ := by
  rw [startUnits, call_bind_run]
  cases hs : E.startUnit h t <;> simp [pure_run]

/-- The loop of lines 64-68 always returns: it never ends the process. -/
theorem startUnits_returns {S : Type} (E : Env S) (ts : List GoString) (h : List Event) :
    ∃ r, (startUnits E ts h).outcome = .ret r := by
  induction ts generalizing h with
  | nil => exact ⟨none, rfl⟩
  | cons t ts ih =>
    rw [startUnits_cons]
    cases hs : E.startUnit h t with
    | some err => exact ⟨some err, rfl⟩
    | none => exact ih _

/-- The loop of lines 64-68 makes no call but `StartUnit`. -/
theorem startUnits_trace {S : Type} (E : Env S) (ts : List GoString) (h : List Event) :
    ∀ ev ∈ (startUnits E ts h).trace, ∃ name err, ev = .startUnit name err := by
  induction ts generalizing h with
  | nil => intro ev hev; simp [startUnits_nil] at hev
  | cons t ts ih =>
    rw [startUnits_cons]
    cases hs : E.startUnit h t with
    | some err =>
      intro ev hev
      simp at hev
      exact ⟨t, some err, hev⟩
    | none =>
      intro ev hev
      simp only [List.mem_cons] at hev
      rcases hev with rfl | hev
      · exact ⟨t, none, rfl⟩
      · exact ih _ ev hev

/-- The three ways `reloadSystemd` runs. -/
theorem reloadSystemd_run {S : Type} (E : Env S) (timers : List GoString) (h : List Event) :
    reloadSystemd E timers h =
      match E.newConn h with
      | some err => ⟨[.newConn (some err), .stderr err], .exit 1⟩
      | none =>
        match E.reload (h ++ [.newConn none]) with
        | some err => ⟨[.newConn none, .reload (some err), .close], .ret (some err)⟩
        | none =>
          ⟨.newConn none :: .reload none ::
              ((startUnits E timers (h ++ [.newConn none, .reload none])).trace ++ [.close]),
            (startUnits E timers (h ++ [.newConn none, .reload none])).outcome⟩ := by
  rw [reloadSystemd, call_bind_run]
  cases hc : E.newConn h with
  | some err => simp [die_run]
  | none =>
    simp only []
    cases hr : E.reload (h ++ [.newConn none]) with
    | some err =>
      simp [bind_run, Prog.bind, call, hr, pure_run]
    | none =>
      obtain ⟨r, hret⟩ := startUnits_returns E timers (h ++ [.newConn none, .reload none])
      simp [bind_run, Prog.bind, call, hr, pure_run, hret]

/-- When nothing fails, the loop of lines 64-68 starts every timer, in list
order, and returns nil. -/
theorem startUnits_all {S : Type} (E : Env S) (timers : List GoString) (h : List Event)
    (hok : ∀ pre t post, timers = pre ++ t :: post →
      E.startUnit (h ++ pre.map (fun u => Event.startUnit u none)) t = none) :
    startUnits E timers h = ⟨timers.map (fun u => Event.startUnit u none), .ret none⟩ := by
  induction timers generalizing h with
  | nil => rfl
  | cons t ts ih =>
    have h0 : E.startUnit h t = none := by simpa using hok [] t ts rfl
    rw [startUnits_cons, h0]
    have ih1 := ih (h ++ [Event.startUnit t none]) (by
      intro pre u post hts
      have := hok (t :: pre) u post (by simp [hts])
      simpa using this)
    simp [ih1]

/-- When the first failing start is the one of `t`, the loop of lines 64-68
starts the timers before `t` and `t`, and returns the error of that call. -/
theorem startUnits_first_failure {S : Type} (E : Env S) (pre : List GoString) (t : GoString)
    (post : List GoString) (e : GoError) (h : List Event)
    (hpre : ∀ pre1 u post1, pre = pre1 ++ u :: post1 →
      E.startUnit (h ++ pre1.map (fun u => Event.startUnit u none)) u = none)
    (hfail : E.startUnit (h ++ pre.map (fun u => Event.startUnit u none)) t = some e) :
    startUnits E (pre ++ t :: post) h
      = ⟨pre.map (fun u => Event.startUnit u none) ++ [Event.startUnit t (some e)],
          .ret (some e)⟩ := by
  induction pre generalizing h with
  | nil =>
    have h0 : E.startUnit h t = some e := by simpa using hfail
    simp [startUnits_cons, h0]
  | cons p ps ih =>
    have h0 : E.startUnit h p = none := by simpa using hpre [] p ps rfl
    have ih1 := ih (h ++ [Event.startUnit p none]) (by
      intro pre1 u post1 hps
      have := hpre (p :: pre1) u post1 (by simp [hps])
      simpa using this) (by simpa using hfail)
    simp [startUnits_cons, h0, ih1]

/-- The loop of lines 64-68 returns nil when no start failed, and the error
of a failed start otherwise. -/
theorem startUnits_outcome {S : Type} (E : Env S) (ts : List GoString) (h : List Event) :
    ((startUnits E ts h).outcome = .ret none ∧
        ∀ ev ∈ (startUnits E ts h).trace, ev.failed = false) ∨
    (∃ e, (startUnits E ts h).outcome = .ret (some e) ∧
        ∃ ev ∈ (startUnits E ts h).trace, ev.failed = true) := by
  induction ts generalizing h with
  | nil => left; simp [startUnits_nil]
  | cons t ts ih =>
    rw [startUnits_cons]
    cases hs : E.startUnit h t with
    | some err => right; exact ⟨err, rfl, _, List.mem_singleton.2 rfl, rfl⟩
    | none =>
      rcases ih (h ++ [Event.startUnit t none]) with ⟨h1, h2⟩ | ⟨e, h1, ev, hev, hf⟩
      · left
        refine ⟨h1, ?_⟩
        intro ev hev
        simp only [List.mem_cons] at hev
        rcases hev with rfl | hev
        · rfl
        · exact h2 ev hev
      · right
        exact ⟨e, h1, ev, List.mem_cons_of_mem _ hev, hf⟩

/-- The outcome of `reloadSystemd`: nil when no call failed; otherwise a call
failed, and the function returns an error or the process exits with status
1. -/
theorem reloadSystemd_outcome {S : Type} (E : Env S) (timers : List GoString)
    (h : List Event) :
    ((reloadSystemd E timers h).outcome = .ret none ∧
        ∀ ev ∈ (reloadSystemd E timers h).trace, ev.failed = false) ∨
    (((∃ e, (reloadSystemd E timers h).outcome = .ret (some e)) ∨
        (reloadSystemd E timers h).outcome = .exit 1) ∧
      ∃ ev ∈ (reloadSystemd E timers h).trace, ev.failed = true) := by
  have hrun := reloadSystemd_run E timers h
  cases hc : E.newConn h with
  | some err =>
    simp only [hc] at hrun
    rw [hrun]
    right
    exact ⟨Or.inr rfl, _, List.mem_cons_self _ _, rfl⟩
  | none =>
    cases hr : E.reload (h ++ [Event.newConn none]) with
    | some err =>
      simp only [hc, hr] at hrun
      rw [hrun]
      right
      exact ⟨Or.inl ⟨err, rfl⟩, Event.reload (some err), by simp, rfl⟩
    | none =>
      simp only [hc, hr] at hrun
      rw [hrun]
      rcases startUnits_outcome E timers (h ++ [Event.newConn none, Event.reload none]) with
        ⟨h1, h2⟩ | ⟨e, h1, ev, hev, hf⟩
      · left
        refine ⟨h1, ?_⟩
        intro ev hev
        simp only [List.mem_cons, List.mem_append, List.mem_singleton, List.not_mem_nil,
          or_false] at hev
        rcases hev with rfl | rfl | hev | rfl
        · rfl
        · rfl
        · exact h2 ev hev
        · rfl
      · right
        exact ⟨Or.inl ⟨e, h1⟩, ev, by simp [hev], hf⟩

/-- The run of `reloadSystemd` starts with its one call of `NewConn`; what
follows writes no file. -/
theorem reloadSystemd_shape {S : Type} (E : Env S) (timers : List GoString) (h : List Event) :
    ∃ rest, (reloadSystemd E timers h).trace = Event.newConn (E.newConn h) :: rest ∧
      ∀ ev ∈ rest, ev.isWrite = false ∧ ev.isNewConn = false := by
  have hrun := reloadSystemd_run E timers h
  cases hc : E.newConn h with
  | some err =>
    simp only [hc] at hrun
    rw [hrun]
    exact ⟨_, rfl, by simp [Event.isWrite, Event.isNewConn]⟩
  | none =>
    cases hr : E.reload (h ++ [Event.newConn none]) with
    | some err =>
      simp only [hc, hr] at hrun
      rw [hrun]
      exact ⟨_, rfl, by simp [Event.isWrite, Event.isNewConn]⟩
    | none =>
      simp only [hc, hr] at hrun
      rw [hrun]
      refine ⟨_, rfl, ?_⟩
      intro ev hev
      simp only [List.mem_cons, List.mem_append, List.mem_singleton, List.not_mem_nil,
        or_false] at hev
      rcases hev with rfl | hev | rfl
      · exact ⟨rfl, rfl⟩
      · obtain ⟨name, err, rfl⟩ := startUnits_trace E timers _ ev hev
        exact ⟨rfl, rfl⟩
      · exact ⟨rfl, rfl⟩

/-- The run of `reloadSystemd` holds no conversion, generation or write. -/
theorem reloadSystemd_no_generation {S : Type} (E : Env S) (timers : List GoString)
    (h : List Event) : ∀ ev ∈ (reloadSystemd E timers h).trace, ev.isGeneration = false := by
  have hrun := reloadSystemd_run E timers h
  cases hc : E.newConn h with
  | some err =>
    simp only [hc] at hrun
    rw [hrun]
    simp [Event.isGeneration]
  | none =>
    cases hr : E.reload (h ++ [Event.newConn none]) with
    | some err =>
      simp only [hc, hr] at hrun
      rw [hrun]
      simp [Event.isGeneration]
    | none =>
      simp only [hc, hr] at hrun
      rw [hrun]
      intro ev hev
      simp only [List.mem_cons, List.mem_append, List.mem_singleton, List.not_mem_nil,
        or_false] at hev
      rcases hev with rfl | rfl | hev | rfl
      · rfl
      · rfl
      · obtain ⟨name, err, rfl⟩ := startUnits_trace E timers _ ev hev
        rfl
      · rfl

/-! ## The activation -/

theorem activate_off {S : Type} (E : Env S) (o : Opts) (timers : List GoString)
    (h : List Event) (hoff : o.reload = false) : activate E o timers h = ⟨[], .ret ()⟩ := by
  simp [activate, hoff, pure_run]

theorem activate_on {S : Type} (E : Env S) (o : Opts) (timers : List GoString)
    (h : List Event) (hon : o.reload = true) :
    activate E o timers h =
      match reloadSystemd E timers h with
      | ⟨t, .ret none⟩ => ⟨t, .ret ()⟩
      | ⟨t, .ret (some e)⟩ => ⟨t ++ [.stderr e], .exit 1⟩
      | ⟨t, .exit c⟩ => ⟨t, .exit c⟩
      | ⟨t, .panic⟩ => ⟨t, .panic⟩ := by
  simp only [activate, hon, if_true, bind_run, Prog.bind]
  rcases hr : reloadSystemd E timers h with ⟨t, (_ | e) | c | _⟩ <;> simp [pure_run, die_run]

/-- The activation with `--reload` on: the run of `reloadSystemd`, then at
most the printing of its error. -/
theorem activate_on_shape {S : Type} (E : Env S) (o : Opts) (timers : List GoString)
    (h : List Event) (hon : o.reload = true) :
    ∃ tail, (activate E o timers h).trace = (reloadSystemd E timers h).trace ++ tail ∧
      (tail = [] ∨ ∃ e, tail = [Event.stderr e]) := by
  rw [activate_on E o timers h hon]
  rcases hr : reloadSystemd E timers h with ⟨t, (_ | e) | c | _⟩
  · exact ⟨[], by simp, Or.inl rfl⟩
  · exact ⟨[Event.stderr e], by simp, Or.inr ⟨e, rfl⟩⟩
  · exact ⟨[], by simp, Or.inl rfl⟩
  · exact ⟨[], by simp, Or.inl rfl⟩

/-- The activation either returns, with no failed call, or ends the process
with status 1 after a failed call. -/
theorem activate_outcome {S : Type} (E : Env S) (o : Opts) (timers : List GoString)
    (h : List Event) :
    ((activate E o timers h).outcome = .ret () ∧
        ∀ ev ∈ (activate E o timers h).trace, ev.failed = false) ∨
    ((activate E o timers h).outcome = .exit 1 ∧
        ∃ ev ∈ (activate E o timers h).trace, ev.failed = true) := by
  cases hon : o.reload with
  | false => left; rw [activate_off E o timers h hon]; simp
  | true =>
    rw [activate_on E o timers h hon]
    rcases reloadSystemd_outcome E timers h with ⟨h1, h2⟩ | ⟨⟨e, h1⟩ | h1, ev, hev, hf⟩
    · rcases hr : reloadSystemd E timers h with ⟨t, out⟩
      rw [hr] at h1 h2
      simp only at h1 h2
      subst h1
      left
      exact ⟨rfl, h2⟩
    · rcases hr : reloadSystemd E timers h with ⟨t, out⟩
      rw [hr] at h1 hev
      simp only at h1 hev
      subst h1
      right
      exact ⟨rfl, ev, by simp [hev], hf⟩
    · rcases hr : reloadSystemd E timers h with ⟨t, out⟩
      rw [hr] at h1 hev
      simp only at h1 hev
      subst h1
      right
      exact ⟨rfl, ev, hev, hf⟩

/-- The activation with `--reload` off calls nothing; with `--reload` on it
writes no file. -/
theorem activate_no_write {S : Type} (E : Env S) (o : Opts) (timers : List GoString)
    (h : List Event) : ∀ ev ∈ (activate E o timers h).trace, ev.isWrite = false := by
  cases hon : o.reload with
  | false => rw [activate_off E o timers h hon]; simp
  | true =>
    obtain ⟨tail, htr, htail⟩ := activate_on_shape E o timers h hon
    obtain ⟨rest, hrest, hnw⟩ := reloadSystemd_shape E timers h
    rw [htr, hrest]
    intro ev hev
    simp only [List.mem_cons, List.mem_append] at hev
    rcases hev with (rfl | hev) | hev
    · rfl
    · exact (hnw ev hev).1
    · rcases htail with rfl | ⟨e, rfl⟩
      · simp at hev
      · simp at hev; subst hev; rfl

/-- The activation holds no conversion, generation or write. -/
theorem activate_no_generation {S : Type} (E : Env S) (o : Opts) (timers : List GoString)
    (h : List Event) : ∀ ev ∈ (activate E o timers h).trace, ev.isGeneration = false := by
  cases hon : o.reload with
  | false => rw [activate_off E o timers h hon]; simp
  | true =>
    obtain ⟨tail, htr, htail⟩ := activate_on_shape E o timers h hon
    rw [htr]
    intro ev hev
    simp only [List.mem_append] at hev
    rcases hev with hev | hev
    · exact reloadSystemd_no_generation E timers h ev hev
    · rcases htail with rfl | ⟨e, rfl⟩
      · simp at hev
      · simp at hev; subst hev; rfl

/-! ## One iteration of the loop -/

theorem slice_take (d : GoString) (hlen : 12 ≤ d.length) : slice d 0 12 = some (d.take 12) := by
  simp [slice, hlen]

/-- The ways one iteration of the loop of lines 93-127 runs. -/
theorem generateUnit_run {S : Type} (E : Env S) (o : Opts) (s : S) (h : List Event) :
    generateUnit E o s h =
      match E.convertToSystemdCalendar s with
      | .err err => ⟨[.convert (.err err), .stderr err], .exit 1⟩
      | .ok calendar =>
        match slice (E.sha256Sum s) 0 12 with
        | none => ⟨[.convert (.ok calendar)], .panic⟩
        | some digest =>
          match E.generateService ("cron-".toList ++ digest) (E.command s) o.after with
          | .err err =>
            ⟨[.convert (.ok calendar),
              .generateService ("cron-".toList ++ digest) (E.command s) o.after (.err err),
              .stderr err], .exit 1⟩
          | .ok service =>
            match E.writeFile
                (h ++ [.convert (.ok calendar)]
                  ++ [.generateService ("cron-".toList ++ digest) (E.command s) o.after (.ok service)])
                (E.join o.outdir ("cron-".toList ++ digest ++ ".service".toList)) service perm0644 with
            | some err =>
              ⟨[.convert (.ok calendar),
                .generateService ("cron-".toList ++ digest) (E.command s) o.after (.ok service),
                .writeFile (E.join o.outdir ("cron-".toList ++ digest ++ ".service".toList))
                  service perm0644 (some err),
                .stderr err], .exit 1⟩
            | none =>
              match E.generateTimer ("cron-".toList ++ digest) calendar with
              | .err err =>
                ⟨[.convert (.ok calendar),
                  .generateService ("cron-".toList ++ digest) (E.command s) o.after (.ok service),
                  .writeFile (E.join o.outdir ("cron-".toList ++ digest ++ ".service".toList))
                    service perm0644 none,
                  .generateTimer ("cron-".toList ++ digest) calendar (.err err),
                  .stderr err], .exit 1⟩
              | .ok timer =>
                match E.writeFile
                    (h ++ [.convert (.ok calendar)]
                      ++ [.generateService ("cron-".toList ++ digest) (E.command s) o.after (.ok service)]
                      ++ [.writeFile (E.join o.outdir ("cron-".toList ++ digest ++ ".service".toList))
                        service perm0644 none]
                      ++ [.generateTimer ("cron-".toList ++ digest) calendar (.ok timer)])
                    (E.join o.outdir ("cron-".toList ++ digest ++ ".timer".toList)) timer perm0644 with
                | some err =>
                  ⟨[.convert (.ok calendar),
                    .generateService ("cron-".toList ++ digest) (E.command s) o.after (.ok service),
                    .writeFile (E.join o.outdir ("cron-".toList ++ digest ++ ".service".toList))
                      service perm0644 none,
                    .generateTimer ("cron-".toList ++ digest) calendar (.ok timer),
                    .writeFile (E.join o.outdir ("cron-".toList ++ digest ++ ".timer".toList))
                      timer perm0644 (some err),
                    .stderr err], .exit 1⟩
                | none =>
                  ⟨[.convert (.ok calendar),
                    .generateService ("cron-".toList ++ digest) (E.command s) o.after (.ok service),
                    .writeFile (E.join o.outdir ("cron-".toList ++ digest ++ ".service".toList))
                      service perm0644 none,
                    .generateTimer ("cron-".toList ++ digest) calendar (.ok timer),
                    .writeFile (E.join o.outdir ("cron-".toList ++ digest ++ ".timer".toList))
                      timer perm0644 none],
                    .ret ("cron-".toList ++ digest ++ ".timer".toList)⟩ := by
  rw [generateUnit, call_bind_run]
  cases hc : E.convertToSystemdCalendar s with
  | err err => rfl
  | ok calendar =>
    simp only []
    cases hd : slice (E.sha256Sum s) 0 12 with
    | none => rfl
    | some digest =>
      simp only [call_bind_run]
      cases hg : E.generateService ("cron-".toList ++ digest) (E.command s) o.after with
      | err err => rfl
      | ok service =>
        simp only [call_bind_run]
        split <;> rename_i hw1
        · simp only [hw1]; rfl
        · simp only [hw1]
          cases hgt : E.generateTimer ("cron-".toList ++ digest) calendar with
          | err err => rfl
          | ok timer =>
            simp only [call_bind_run]
            split <;> rename_i hw2
            · simp only [hw2]; rfl
            · simp only [hw2]; rfl

/-- One iteration whose conversion fails: the error is printed and the
process exits with status 1 before anything else is called. -/
theorem generateUnit_convert_err {S : Type} (E : Env S) (o : Opts) (s : S) (h : List Event)
    (e : GoError) (hc : E.convertToSystemdCalendar s = .err e) :
    generateUnit E o s h = ⟨[.convert (.err e), .stderr e], .exit 1⟩ := by
  rw [generateUnit_run, hc]

/-- The six ways an iteration runs when the digest has at least 12 bytes:
one of the five calls fails, or none does. -/
theorem generateUnit_cases {S : Type} (E : Env S) (o : Opts) (s : S) (h : List Event)
    (hlen : 12 ≤ (E.sha256Sum s).length) :
    (∃ e, E.convertToSystemdCalendar s = .err e ∧
      generateUnit E o s h = ⟨[.convert (.err e), .stderr e], .exit 1⟩) ∨
    (∃ calendar e, E.convertToSystemdCalendar s = .ok calendar ∧
      E.generateService (unitName E s) (E.command s) o.after = .err e ∧
      generateUnit E o s h =
        ⟨[.convert (.ok calendar),
          .generateService (unitName E s) (E.command s) o.after (.err e),
          .stderr e], .exit 1⟩) ∨
    (∃ calendar service e, E.convertToSystemdCalendar s = .ok calendar ∧
      E.generateService (unitName E s) (E.command s) o.after = .ok service ∧
      generateUnit E o s h =
        ⟨[.convert (.ok calendar),
          .generateService (unitName E s) (E.command s) o.after (.ok service),
          .writeFile (E.join o.outdir (unitName E s ++ ".service".toList)) service perm0644 (some e),
          .stderr e], .exit 1⟩) ∨
    (∃ calendar service e, E.convertToSystemdCalendar s = .ok calendar ∧
      E.generateService (unitName E s) (E.command s) o.after = .ok service ∧
      E.generateTimer (unitName E s) calendar = .err e ∧
      generateUnit E o s h =
        ⟨[.convert (.ok calendar),
          .generateService (unitName E s) (E.command s) o.after (.ok service),
          .writeFile (E.join o.outdir (unitName E s ++ ".service".toList)) service perm0644 none,
          .generateTimer (unitName E s) calendar (.err e),
          .stderr e], .exit 1⟩) ∨
    (∃ calendar service timer e, E.convertToSystemdCalendar s = .ok calendar ∧
      E.generateService (unitName E s) (E.command s) o.after = .ok service ∧
      E.generateTimer (unitName E s) calendar = .ok timer ∧
      generateUnit E o s h =
        ⟨[.convert (.ok calendar),
          .generateService (unitName E s) (E.command s) o.after (.ok service),
          .writeFile (E.join o.outdir (unitName E s ++ ".service".toList)) service perm0644 none,
          .generateTimer (unitName E s) calendar (.ok timer),
          .writeFile (E.join o.outdir (unitName E s ++ ".timer".toList)) timer perm0644 (some e),
          .stderr e], .exit 1⟩) ∨
    (∃ calendar service timer, E.convertToSystemdCalendar s = .ok calendar ∧
      E.generateService (unitName E s) (E.command s) o.after = .ok service ∧
      E.generateTimer (unitName E s) calendar = .ok timer ∧
      generateUnit E o s h =
        ⟨[.convert (.ok calendar),
          .generateService (unitName E s) (E.command s) o.after (.ok service),
          .writeFile (E.join o.outdir (unitName E s ++ ".service".toList)) service perm0644 none,
          .generateTimer (unitName E s) calendar (.ok timer),
          .writeFile (E.join o.outdir (unitName E s ++ ".timer".toList)) timer perm0644 none],
          .ret (unitName E s ++ ".timer".toList)⟩) := by
  rw [generateUnit_run, slice_take _ hlen]
  unfold unitName
  cases hc : E.convertToSystemdCalendar s with
  | err err => exact Or.inl ⟨err, rfl, rfl⟩
  | ok calendar =>
    right
    simp only []
    cases hg : E.generateService ("cron-".toList ++ (E.sha256Sum s).take 12) (E.command s)
        o.after with
    | err err => exact Or.inl ⟨calendar, err, rfl, rfl, rfl⟩
    | ok service =>
      right
      simp only []
      split <;> rename_i hw1
      · rename_i err
        exact Or.inl ⟨calendar, service, err, rfl, rfl, rfl⟩
      · right
        cases hgt : E.generateTimer ("cron-".toList ++ (E.sha256Sum s).take 12) calendar with
        | err err => exact Or.inl ⟨calendar, service, err, rfl, rfl, hgt, rfl⟩
        | ok timer =>
          right
          simp only []
          split <;> rename_i hw2
          · rename_i err
            exact Or.inl ⟨calendar, service, timer, err, rfl, rfl, hgt, rfl⟩
          · exact Or.inr ⟨calendar, service, timer, rfl, rfl, hgt, rfl⟩

/-- One iteration makes no call to the service manager. -/
theorem generateUnit_no_manager {S : Type} (E : Env S) (o : Opts) (s : S) (h : List Event) :
    ∀ ev ∈ (generateUnit E o s h).trace, ev.isManager = false := by
  rw [generateUnit_run]
  intro ev hev
  repeat' split at hev
  all_goals
    simp only [List.mem_cons, List.mem_singleton, List.not_mem_nil, or_false] at hev
    rcases hev with rfl | rfl | rfl | rfl | rfl | rfl <;> rfl

/-- The five calls of an iteration in which nothing fails. -/
theorem generateUnit_of_no_failure {S : Type} (E : Env S) (o : Opts) (s : S) (h : List Event)
    (hlen : 12 ≤ (E.sha256Sum s).length)
    (hnf : ∀ ev ∈ (generateUnit E o s h).trace, ev.failed = false) :
    ∃ calendar service timer,
      E.convertToSystemdCalendar s = .ok calendar ∧
      E.generateService (unitName E s) (E.command s) o.after = .ok service ∧
      E.generateTimer (unitName E s) calendar = .ok timer ∧
      generateUnit E o s h =
        ⟨[.convert (.ok calendar),
          .generateService (unitName E s) (E.command s) o.after (.ok service),
          .writeFile (E.join o.outdir (unitName E s ++ ".service".toList)) service perm0644 none,
          .generateTimer (unitName E s) calendar (.ok timer),
          .writeFile (E.join o.outdir (unitName E s ++ ".timer".toList)) timer perm0644 none],
          .ret (unitName E s ++ ".timer".toList)⟩ := by
  rcases generateUnit_cases E o s h hlen with ⟨e, -, hrun⟩ | ⟨c, e, -, -, hrun⟩ |
    ⟨c, sv, e, -, -, hrun⟩ | ⟨c, sv, e, -, -, -, hrun⟩ | ⟨c, sv, t, e, -, -, -, hrun⟩ |
    ⟨c, sv, t, hc, hg, hgt, hrun⟩
  · rw [hrun] at hnf; simp [Event.failed] at hnf
  · rw [hrun] at hnf; simp [Event.failed] at hnf
  · rw [hrun] at hnf; simp [Event.failed] at hnf
  · rw [hrun] at hnf; simp [Event.failed] at hnf
  · rw [hrun] at hnf; simp [Event.failed] at hnf
  · exact ⟨c, sv, t, hc, hg, hgt, hrun⟩

/-- An iteration either returns the timer name, with no failed call, or ends
the process with status 1 after a failed call. -/
theorem generateUnit_outcome {S : Type} (E : Env S) (o : Opts) (s : S) (h : List Event)
    (hlen : 12 ≤ (E.sha256Sum s).length) :
    ((∀ ev ∈ (generateUnit E o s h).trace, ev.failed = false) ∧
        (generateUnit E o s h).outcome = .ret (unitName E s ++ ".timer".toList)) ∨
    ((∃ ev ∈ (generateUnit E o s h).trace, ev.failed = true) ∧
        (generateUnit E o s h).outcome = .exit 1) := by
  rcases generateUnit_cases E o s h hlen with ⟨e, -, hrun⟩ | ⟨c, e, -, -, hrun⟩ |
    ⟨c, sv, e, -, -, hrun⟩ | ⟨c, sv, e, -, -, -, hrun⟩ | ⟨c, sv, t, e, -, -, -, hrun⟩ |
    ⟨c, sv, t, hc, hg, hgt, hrun⟩
  · right; rw [hrun]; simp [Event.failed]
  · right; rw [hrun]; simp [Event.failed]
  · right; rw [hrun]; simp [Event.failed]
  · right; rw [hrun]; simp [Event.failed]
  · right; rw [hrun]; simp [Event.failed]
  · left; rw [hrun]; simp [Event.failed]

/-- The conversion recorded in an iteration is the one of its schedule. -/
theorem generateUnit_convert_event {S : Type} (E : Env S) (o : Opts) (s : S) (h : List Event)
    (r : Result GoString) (hev : Event.convert r ∈ (generateUnit E o s h).trace) :
    r = E.convertToSystemdCalendar s := by
  rw [generateUnit_run] at hev
  repeat' split at hev
  all_goals
    simp only [List.mem_cons, List.mem_singleton, List.not_mem_nil, or_false,
      Event.convert.injEq, reduceCtorEq, false_or] at hev
    rw [hev]
    symm
    assumption

/-- What an iteration passes to `GenerateService` and to `WriteFile`. -/
theorem generateUnit_events {S : Type} (E : Env S) (o : Opts) (s : S) (h : List Event)
    (hlen : 12 ≤ (E.sha256Sum s).length) :
    (∀ name command after r,
      Event.generateService name command after r ∈ (generateUnit E o s h).trace →
        name = unitName E s ∧ command = E.command s ∧ after = o.after) ∧
    (∀ path data perm r, Event.writeFile path data perm r ∈ (generateUnit E o s h).trace →
      perm = perm0644 ∧
      ((path = servicePath E o s ∧
          E.generateService (unitName E s) (E.command s) o.after = .ok data) ∨
        (path = timerPath E o s ∧ ∃ calendar, E.convertToSystemdCalendar s = .ok calendar ∧
          E.generateTimer (unitName E s) calendar = .ok data))) := by
  rcases generateUnit_cases E o s h hlen with ⟨e, -, hrun⟩ | ⟨c, e, -, -, hrun⟩ |
    ⟨c, sv, e, hc, hg, hrun⟩ | ⟨c, sv, e, hc, hg, hgt, hrun⟩ | ⟨c, sv, t, e, hc, hg, hgt, hrun⟩ |
    ⟨c, sv, t, hc, hg, hgt, hrun⟩
  · rw [hrun]
    constructor
    · intro name command after r hev
      simp at hev
    · intro path data perm r hev
      simp at hev
  · rw [hrun]
    constructor
    · intro name command after r hev
      simp only [List.mem_cons, List.mem_singleton, List.not_mem_nil, or_false, reduceCtorEq,
        false_or, Event.generateService.injEq] at hev
      exact ⟨hev.1, hev.2.1, hev.2.2.1⟩
    · intro path data perm r hev
      simp at hev
  · rw [hrun]
    constructor
    · intro name command after r hev
      simp only [List.mem_cons, List.mem_singleton, List.not_mem_nil, or_false, reduceCtorEq,
        false_or, Event.generateService.injEq] at hev
      exact ⟨hev.1, hev.2.1, hev.2.2.1⟩
    · intro path data perm r hev
      simp only [List.mem_cons, List.mem_singleton, List.not_mem_nil, or_false, reduceCtorEq,
        false_or, Event.writeFile.injEq] at hev
      obtain ⟨rfl, rfl, rfl, -⟩ := hev
      exact ⟨rfl, Or.inl ⟨rfl, hg⟩⟩
  · rw [hrun]
    constructor
    · intro name command after r hev
      simp only [List.mem_cons, List.mem_singleton, List.not_mem_nil, or_false, reduceCtorEq,
        false_or, Event.generateService.injEq] at hev
      exact ⟨hev.1, hev.2.1, hev.2.2.1⟩
    · intro path data perm r hev
      simp only [List.mem_cons, List.mem_singleton, List.not_mem_nil, or_false, reduceCtorEq,
        false_or, Event.writeFile.injEq] at hev
      obtain ⟨rfl, rfl, rfl, -⟩ := hev
      exact ⟨rfl, Or.inl ⟨rfl, hg⟩⟩
  · rw [hrun]
    constructor
    · intro name command after r hev
      simp only [List.mem_cons, List.mem_singleton, List.not_mem_nil, or_false, reduceCtorEq,
        false_or, Event.generateService.injEq] at hev
      exact ⟨hev.1, hev.2.1, hev.2.2.1⟩
    · intro path data perm r hev
      simp only [List.mem_cons, List.mem_singleton, List.not_mem_nil, or_false, reduceCtorEq,
        false_or, Event.writeFile.injEq] at hev
      rcases hev with ⟨rfl, rfl, rfl, -⟩ | ⟨rfl, rfl, rfl, -⟩
      · exact ⟨rfl, Or.inl ⟨rfl, hg⟩⟩
      · exact ⟨rfl, Or.inr ⟨rfl, c, hc, hgt⟩⟩
  · rw [hrun]
    constructor
    · intro name command after r hev
      simp only [List.mem_cons, List.mem_singleton, List.not_mem_nil, or_false, reduceCtorEq,
        false_or, Event.generateService.injEq] at hev
      exact ⟨hev.1, hev.2.1, hev.2.2.1⟩
    · intro path data perm r hev
      simp only [List.mem_cons, List.mem_singleton, List.not_mem_nil, or_false, reduceCtorEq,
        false_or, Event.writeFile.injEq] at hev
      rcases hev with ⟨rfl, rfl, rfl, -⟩ | ⟨rfl, rfl, rfl, -⟩
      · exact ⟨rfl, Or.inl ⟨rfl, hg⟩⟩
      · exact ⟨rfl, Or.inr ⟨rfl, c, hc, hgt⟩⟩

/-! ## The loop -/

theorem generateUnits_nil {S : Type} (E : Env S) (o : Opts) (timers : List GoString)
    (h : List Event) : generateUnits E o [] timers h = ⟨[], .ret timers⟩ := rfl

theorem generateUnits_cons {S : Type} (E : Env S) (o : Opts) (s : S) (ss : List S)
    (timers : List GoString) (h : List Event) :
    generateUnits E o (s :: ss) timers h
      = Prog.bind (generateUnit E o s) (fun t => generateUnits E o ss (timers ++ [t])) h := rfl

/-- The loop after an iteration that returned. -/
theorem generateUnits_cons_ret {S : Type} (E : Env S) (o : Opts) (s : S) (ss : List S)
    (timers : List GoString) (h t : List Event) (timer : GoString)
    (hs : generateUnit E o s h = ⟨t, .ret timer⟩) :
    generateUnits E o (s :: ss) timers h
      = ⟨t ++ (generateUnits E o ss (timers ++ [timer]) (h ++ t)).trace,
          (generateUnits E o ss (timers ++ [timer]) (h ++ t)).outcome⟩ := by
  rw [generateUnits_cons]
  simp only [Prog.bind, hs]

/-- The loop after an iteration that ended the process. -/
theorem generateUnits_cons_exit {S : Type} (E : Env S) (o : Opts) (s : S) (ss : List S)
    (timers : List GoString) (h t : List Event) (c : Nat)
    (hs : generateUnit E o s h = ⟨t, .exit c⟩) :
    generateUnits E o (s :: ss) timers h = ⟨t, .exit c⟩ := by
  rw [generateUnits_cons]
  simp only [Prog.bind, hs]

/-- Every call of the loop is a call of one of its iterations. -/
theorem generateUnits_mem {S : Type} (E : Env S) (o : Opts) (ss : List S)
    (timers : List GoString) (h : List Event) :
    ∀ ev ∈ (generateUnits E o ss timers h).trace,
      ∃ s ∈ ss, ∃ h1, ev ∈ (generateUnit E o s h1).trace := by
  induction ss generalizing timers h with
  | nil => intro ev hev; simp [generateUnits_nil] at hev
  | cons s ss ih =>
    intro ev hev
    rw [generateUnits_cons] at hev
    unfold Prog.bind at hev
    split at hev <;> rename_i hs
    · simp only [List.mem_append] at hev
      rcases hev with hev | hev
      · exact ⟨s, by simp, h, by rw [hs]; exact hev⟩
      · obtain ⟨s1, hs1, h1, hev1⟩ := ih _ _ ev hev
        exact ⟨s1, by simp [hs1], h1, hev1⟩
    · exact ⟨s, by simp, h, by rw [hs]; exact hev⟩
    · exact ⟨s, by simp, h, by rw [hs]; exact hev⟩

/-- The loop makes no call to the service manager. -/
theorem generateUnits_no_manager {S : Type} (E : Env S) (o : Opts) (ss : List S)
    (timers : List GoString) (h : List Event) :
    ∀ ev ∈ (generateUnits E o ss timers h).trace, ev.isManager = false := by
  intro ev hev
  obtain ⟨s, -, h1, hev1⟩ := generateUnits_mem E o ss timers h ev hev
  exact generateUnit_no_manager E o s h1 ev hev1

/-- The loop either returns the timers, with no failed call, or ends the
process with status 1 after a failed call. -/
theorem generateUnits_outcome {S : Type} (E : Env S) (o : Opts) (ss : List S)
    (timers : List GoString) (h : List Event)
    (hlen : ∀ s ∈ ss, 12 ≤ (E.sha256Sum s).length) :
    ((∀ ev ∈ (generateUnits E o ss timers h).trace, ev.failed = false) ∧
        (generateUnits E o ss timers h).outcome = .ret (timers ++ ss.map (timerUnit E))) ∨
    ((∃ ev ∈ (generateUnits E o ss timers h).trace, ev.failed = true) ∧
        (generateUnits E o ss timers h).outcome = .exit 1) := by
  induction ss generalizing timers h with
  | nil => left; simp [generateUnits_nil]
  | cons s ss ih =>
    have hlen1 : ∀ s1 ∈ ss, 12 ≤ (E.sha256Sum s1).length :=
      fun s1 hs1 => hlen s1 (List.mem_cons_of_mem _ hs1)
    rcases generateUnit_outcome E o s h (hlen s (List.mem_cons_self _ _)) with ⟨hnf, hret⟩ | ⟨hf, hexit⟩
    · have hs : generateUnit E o s h = ⟨(generateUnit E o s h).trace, .ret (timerUnit E s)⟩ := by
        unfold timerUnit; rw [← hret]
      rw [generateUnits_cons_ret E o s ss timers h _ _ hs]
      rcases ih (timers ++ [timerUnit E s]) (h ++ (generateUnit E o s h).trace) hlen1 with
        ⟨hnf1, hret1⟩ | ⟨⟨ev, hev, hf1⟩, hexit1⟩
      · left
        refine ⟨?_, by simp [hret1]⟩
        intro ev hev
        simp only [List.mem_append] at hev
        rcases hev with hev | hev
        · exact hnf ev hev
        · exact hnf1 ev hev
      · right
        exact ⟨⟨ev, by simp [hev], hf1⟩, hexit1⟩
    · have hs : generateUnit E o s h = ⟨(generateUnit E o s h).trace, .exit 1⟩ := by
        rw [← hexit]
      rw [generateUnits_cons_exit E o s ss timers h _ _ hs]
      right
      exact ⟨hf, rfl⟩

/-- When nothing fails the loop writes, for each schedule in order, its
service file and then its timer file, and nothing else. -/
theorem generateUnits_files {S : Type} (E : Env S) (o : Opts) (ss : List S)
    (timers : List GoString) (h : List Event)
    (hlen : ∀ s ∈ ss, 12 ≤ (E.sha256Sum s).length)
    (hnf : ∀ ev ∈ (generateUnits E o ss timers h).trace, ev.failed = false) :
    filesWritten (generateUnits E o ss timers h).trace = ss.flatMap (unitFiles E o) ∧
    (filesWritten (generateUnits E o ss timers h).trace).map Prod.fst
      = ss.flatMap (fun s => [servicePath E o s, timerPath E o s]) ∧
    (generateUnits E o ss timers h).trace.countP Event.isWrite = 2 * ss.length := by
  induction ss generalizing timers h with
  | nil => simp [generateUnits_nil, filesWritten]
  | cons s ss ih =>
    have hlen1 : ∀ s1 ∈ ss, 12 ≤ (E.sha256Sum s1).length :=
      fun s1 hs1 => hlen s1 (List.mem_cons_of_mem _ hs1)
    have hlen0 := hlen s (List.mem_cons_self _ _)
    rcases generateUnit_outcome E o s h hlen0 with ⟨hnf0, hret⟩ | ⟨⟨ev, hev, hf⟩, hexit⟩
    · obtain ⟨c, sv, t, hc, hg, hgt, hrun⟩ := generateUnit_of_no_failure E o s h hlen0 hnf0
      rw [generateUnits_cons_ret E o s ss timers h _ _ hrun] at hnf ⊢
      obtain ⟨ih1, ih2, ih3⟩ :=
        ih _ _ hlen1 (fun ev hev => hnf ev (List.mem_append_right _ hev))
      simp only [filesWritten] at ih1 ih2 ⊢
      refine ⟨?_, ?_, ?_⟩
      · rw [List.filterMap_append, List.flatMap_cons, ih1]
        congr 1
        simp [unitFiles, hc, hg, hgt, Event.written?, servicePath, timerPath]
      · rw [List.filterMap_append, List.map_append, List.flatMap_cons, ih2]
        congr 1
      · rw [List.countP_append, ih3]
        simp [List.countP_cons, Event.isWrite]
        omega
    · exfalso
      have hs : generateUnit E o s h = ⟨(generateUnit E o s h).trace, .exit 1⟩ := by
        rw [← hexit]
      rw [generateUnits_cons_exit E o s ss timers h _ _ hs] at hnf
      have := hnf ev hev
      simp [hf] at this

/-- The loop up to the first schedule whose conversion fails, when generation
and writing succeed before it: the files of the schedules before it, then the
failed conversion, its message, and status 1. -/
theorem generateUnits_convert_failure {S : Type} (E : Env S) (o : Opts) (pre : List S) (s : S)
    (post : List S) (e : GoError) (timers : List GoString) (h : List Event)
    (hlen : ∀ p ∈ pre, 12 ≤ (E.sha256Sum p).length)
    (hpre : ∀ p ∈ pre, ∃ c, E.convertToSystemdCalendar p = .ok c)
    (hconv : E.convertToSystemdCalendar s = .err e)
    (hok : ∀ ev ∈ (generateUnits E o (pre ++ s :: post) timers h).trace,
      ev.failed = true → ∃ r, ev = Event.convert r) :
    ∃ t, generateUnits E o (pre ++ s :: post) timers h
        = ⟨t ++ [Event.convert (.err e), Event.stderr e], .exit 1⟩ ∧
      (filesWritten t).map Prod.fst
        = pre.flatMap (fun p => [servicePath E o p, timerPath E o p]) ∧
      t.countP Event.isWrite = 2 * pre.length := by
  induction pre generalizing timers h with
  | nil =>
    refine ⟨[], ?_, rfl, rfl⟩
    exact generateUnits_cons_exit E o s post timers h _ 1
      (generateUnit_convert_err E o s h e hconv)
  | cons p pre ih =>
    have hlen0 := hlen p (List.mem_cons_self _ _)
    rcases generateUnit_outcome E o p h hlen0 with ⟨hnf0, -⟩ | ⟨⟨ev, hev, hf⟩, hexit⟩
    · obtain ⟨c, sv, t, hc, hg, hgt, hrun⟩ := generateUnit_of_no_failure E o p h hlen0 hnf0
      have hcons := generateUnits_cons_ret E o p (pre ++ s :: post) timers h _ _ hrun
      rw [List.cons_append, hcons] at hok ⊢
      obtain ⟨t1, ht1, hfiles, hcount⟩ := ih _ _
        (fun q hq => hlen q (List.mem_cons_of_mem _ hq))
        (fun q hq => hpre q (List.mem_cons_of_mem _ hq))
        (fun ev hev => hok ev (List.mem_append_right _ hev))
      rw [ht1]
      refine ⟨[Event.convert (.ok c),
          Event.generateService (unitName E p) (E.command p) o.after (.ok sv),
          Event.writeFile (E.join o.outdir (unitName E p ++ ".service".toList)) sv perm0644 none,
          Event.generateTimer (unitName E p) c (.ok t),
          Event.writeFile (E.join o.outdir (unitName E p ++ ".timer".toList)) t perm0644 none]
          ++ t1, by simp, ?_, ?_⟩
      · simp only [filesWritten] at hfiles ⊢
        rw [List.filterMap_append, List.map_append, List.flatMap_cons, hfiles]
        congr 1
      · rw [List.countP_append, hcount]
        simp [List.countP_cons, Event.isWrite]
        omega
    · exfalso
      have hs : generateUnit E o p h = ⟨(generateUnit E o p h).trace, .exit 1⟩ := by
        rw [← hexit]
      rw [List.cons_append, generateUnits_cons_exit E o p _ timers h _ _ hs] at hok
      obtain ⟨r, rfl⟩ := hok ev hev hf
      have hr := generateUnit_convert_event E o p h r hev
      obtain ⟨c, hc⟩ := hpre p (List.mem_cons_self _ _)
      rw [hr, hc] at hf
      cases hf

/-! ## `main` -/

/-- The part of `main` after the parsing of the crontab: the loop, then the
activation. -/
theorem mainWith_run {S : Type} (E : Env S) (o : Opts) (h : List Event) :
    mainWith E o h =
      match E.readFile h o.filename with
      | .err e => ⟨[.readFile o.filename (.err e), .stderr e], .exit 1⟩
      | .ok body =>
        match E.parse body with
        | .err e => ⟨[.readFile o.filename (.ok body), .parse body (some e), .stderr e], .exit 1⟩
        | .ok schedules =>
          ⟨.readFile o.filename (.ok body) :: .parse body none ::
              (Prog.bind (generateUnits E o schedules []) (activate E o)
                (h ++ [.readFile o.filename (.ok body)] ++ [.parse body none])).trace,
            (Prog.bind (generateUnits E o schedules []) (activate E o)
                (h ++ [.readFile o.filename (.ok body)] ++ [.parse body none])).outcome⟩ := by
  rw [mainWith, call_bind_run]
  cases hr : E.readFile h o.filename with
  | err e => rfl
  | ok body =>
    simp only [call_bind_run]
    cases hp : E.parse body with
    | err e => rfl
    | ok schedules => rfl

/-- The run of `main` up to the reading of the crontab file. -/
theorem main_run {S : Type} (E : Env S) (args : List GoString) (h : List Event) :
    main E args h =
      match pflagParse args (registered E) with
      | .error e => ⟨[], .exit (pflagExitCode E e)⟩
      | .ok o =>
        if o.filename = [] then ⟨[.stderr errNoFile], .exit 1⟩
        else if o.outdir = [] then ⟨[.stderr errNoOutdir], .exit 1⟩
        else
          match E.stat h o.outdir with
          | some e =>
            ⟨[.stat o.outdir (some e),
              .stderr (if e.notExist then errNotExist o.outdir else e.msg)], .exit 1⟩
          | none =>
            ⟨.stat o.outdir none :: (mainWith E o (h ++ [.stat o.outdir none])).trace,
              (mainWith E o (h ++ [.stat o.outdir none])).outcome⟩ := by
  simp only [main, parseArgs, bind_run, Prog.bind]
  cases hp : pflagParse args (registered E) with
  | error e => rfl
  | ok o =>
    simp only []
    by_cases hf : o.filename = []
    · simp only [hf, if_true]; rfl
    · simp only [hf, if_false]
      by_cases hd : o.outdir = []
      · simp only [hd, if_true]; rfl
      · simp only [hd, if_false, call_bind_run]
        cases hs : E.stat h o.outdir with
        | some e =>
          simp only []
          by_cases hn : e.notExist = true
          · simp only [hn, if_true]; rfl
          · simp only [hn]; rfl
        | none => rfl

/-- A run that gets as far as the loop: the prelude, the loop, the
activation. -/
theorem main_of_reachesLoop {S : Type} (E : Env S) (args : List GoString) (o : Opts)
    (body : GoString) (schedules : List S) (hr : ReachesLoop E args o body schedules) :
    main E args [] =
      ⟨prelude o body ++
          (Prog.bind (generateUnits E o schedules []) (activate E o) (prelude o body)).trace,
        (Prog.bind (generateUnits E o schedules []) (activate E o) (prelude o body)).outcome⟩ := by
  rw [main_run, hr.flags]
  simp only [hr.file, hr.outdir, if_false, hr.stat]
  rw [mainWith_run]
  simp only [List.nil_append, hr.read, hr.parsed]
  rfl

/-- The loop followed by the activation either returns, with no failed call,
or ends the process with status 1 after a failed call. -/
theorem generate_activate_outcome {S : Type} (E : Env S) (o : Opts) (schedules : List S)
    (h : List Event) (hlen : ∀ s ∈ schedules, 12 ≤ (E.sha256Sum s).length) :
    ((Prog.bind (generateUnits E o schedules []) (activate E o) h).outcome = .ret () ∧
        ∀ ev ∈ (Prog.bind (generateUnits E o schedules []) (activate E o) h).trace,
          ev.failed = false) ∨
    ((Prog.bind (generateUnits E o schedules []) (activate E o) h).outcome = .exit 1 ∧
        ∃ ev ∈ (Prog.bind (generateUnits E o schedules []) (activate E o) h).trace,
          ev.failed = true) := by
  rcases generateUnits_outcome E o schedules [] h hlen with ⟨hnf, hret⟩ | ⟨⟨ev, hev, hf⟩, hexit⟩
  · rw [bind_of_ret _ _ _ _ hret]
    rcases activate_outcome E o ([] ++ schedules.map (timerUnit E))
        (h ++ (generateUnits E o schedules [] h).trace) with ⟨h1, h2⟩ | ⟨h1, ev, hev, hf⟩
    · left
      refine ⟨h1, ?_⟩
      intro ev hev
      simp only [List.mem_append] at hev
      rcases hev with hev | hev
      · exact hnf ev hev
      · exact h2 ev hev
    · right
      exact ⟨h1, ev, List.mem_append_right _ hev, hf⟩
  · rw [bind_of_exit _ _ _ _ hexit]
    right
    exact ⟨rfl, ev, hev, hf⟩

/-- The part of `main` after `parseArgs` either returns, with no failed call,
or ends the process with status 1 after a failed call. -/
theorem mainWith_outcome {S : Type} (E : Env S) (o : Opts) (h : List Event)
    (hlen : ∀ body schedules, E.parse body = .ok schedules →
      ∀ s ∈ schedules, 12 ≤ (E.sha256Sum s).length) :
    ((mainWith E o h).outcome = .ret () ∧ ∀ ev ∈ (mainWith E o h).trace, ev.failed = false) ∨
    ((mainWith E o h).outcome = .exit 1 ∧ ∃ ev ∈ (mainWith E o h).trace, ev.failed = true) := by
  have hrun := mainWith_run E o h
  cases hrd : E.readFile h o.filename with
  | err e =>
    simp only [hrd] at hrun
    rw [hrun]
    right
    exact ⟨rfl, _, List.mem_cons_self _ _, rfl⟩
  | ok body =>
    cases hps : E.parse body with
    | err e =>
      simp only [hrd, hps] at hrun
      rw [hrun]
      right
      exact ⟨rfl, Event.parse body (some e), by simp, rfl⟩
    | ok schedules =>
      simp only [hrd, hps] at hrun
      rw [hrun]
      rcases generate_activate_outcome E o schedules
          (h ++ [Event.readFile o.filename (Result.ok body)] ++ [Event.parse body none])
          (hlen body schedules hps) with ⟨h1, h2⟩ | ⟨h1, ev, hev, hf⟩
      · left
        refine ⟨h1, ?_⟩
        intro ev hev
        simp only [List.mem_cons] at hev
        rcases hev with rfl | rfl | hev
        · rfl
        · rfl
        · exact h2 ev hev
      · right
        exact ⟨h1, ev, List.mem_cons_of_mem _ (List.mem_cons_of_mem _ hev), hf⟩

/-- A run that gets as far as the loop and in which conversion, generation
and writing never fail: the loop returns the timer of every schedule, and the
activation follows. -/
theorem main_generated {S : Type} (E : Env S) (args : List GoString) (o : Opts)
    (body : GoString) (schedules : List S) (hr : ReachesLoop E args o body schedules)
    (hlen : ∀ s ∈ schedules, 12 ≤ (E.sha256Sum s).length)
    (hok : ∀ ev ∈ (main E args []).trace, ev.failed = true → ev.isManager = true) :
    (generateUnits E o schedules [] (prelude o body)).outcome
        = .ret (schedules.map (timerUnit E)) ∧
      (∀ ev ∈ (generateUnits E o schedules [] (prelude o body)).trace, ev.failed = false) ∧
      main E args [] =
        ⟨prelude o body ++ (generateUnits E o schedules [] (prelude o body)).trace ++
            (activate E o (schedules.map (timerUnit E))
              (prelude o body ++ (generateUnits E o schedules [] (prelude o body)).trace)).trace,
          (activate E o (schedules.map (timerUnit E))
              (prelude o body ++ (generateUnits E o schedules [] (prelude o body)).trace)).outcome⟩ := by
  have hmain := main_of_reachesLoop E args o body schedules hr
  have hnf : ∀ ev ∈ (generateUnits E o schedules [] (prelude o body)).trace,
      ev.failed = false := by
    intro ev hev
    have hnm := generateUnits_no_manager E o schedules [] (prelude o body) ev hev
    obtain ⟨rest, hrest⟩ := bind_trace (generateUnits E o schedules []) (activate E o)
      (prelude o body)
    have hin : ev ∈ (main E args []).trace := by
      rw [hmain, hrest]
      simp [hev]
    cases hf : ev.failed with
    | false => rfl
    | true => have := hok ev hin hf; rw [hnm] at this; cases this
  have hret : (generateUnits E o schedules [] (prelude o body)).outcome
      = .ret (schedules.map (timerUnit E)) := by
    rcases generateUnits_outcome E o schedules [] (prelude o body) hlen with
      ⟨-, h2⟩ | ⟨⟨ev, hev, hf⟩, -⟩
    · simpa using h2
    · rw [hnf ev hev] at hf; cases hf
  refine ⟨hret, hnf, ?_⟩
  rw [hmain, bind_of_ret _ _ _ _ hret]
  simp only [List.append_assoc]

/-- With `--reload` off, `main` makes no call to the service manager. -/
theorem main_reload_off {S : Type} (E : Env S) (args : List GoString) (o : Opts)
    (h : List Event) (hflags : pflagParse args (registered E) = .ok o)
    (hoff : o.reload = false) :
    ∀ ev ∈ (main E args h).trace, ev.isManager = false := by
  rw [main_run, hflags]
  simp only []
  split
  · intro ev hev; simp at hev; subst hev; rfl
  · split
    · intro ev hev; simp at hev; subst hev; rfl
    · split
      · intro ev hev
        simp only [List.mem_cons, List.mem_singleton, List.not_mem_nil, or_false] at hev
        rcases hev with rfl | rfl <;> rfl
      · rw [mainWith_run]
        intro ev hev
        cases hrd : E.readFile (h ++ [Event.stat o.outdir none]) o.filename with
        | err e =>
          simp only [hrd, List.mem_cons, List.mem_singleton, List.not_mem_nil, or_false] at hev
          rcases hev with rfl | rfl | rfl <;> rfl
        | ok body =>
          cases hps : E.parse body with
          | err e =>
            simp only [hrd, hps, List.mem_cons, List.mem_singleton, List.not_mem_nil,
              or_false] at hev
            rcases hev with rfl | rfl | rfl | rfl <;> rfl
          | ok schedules =>
            simp only [hrd, hps, List.mem_cons] at hev
            rcases hev with rfl | rfl | rfl | hev
            · rfl
            · rfl
            · rfl
            · rcases bind_mem _ _ _ ev hev with hev | ⟨timers, hev⟩
              · exact generateUnits_no_manager E o schedules [] _ ev hev
              · rw [activate_off E o _ _ hoff] at hev
                simp at hev

/-- Every conversion, generation and write of `main` belongs to the iteration
of a schedule that `crontab.Parse` returned, under the options pflag left. -/
theorem main_mem_generation {S : Type} (E : Env S) (args : List GoString) (h : List Event)
    (ev : Event) (hev : ev ∈ (main E args h).trace) (hgen : ev.isGeneration = true) :
    ∃ o body schedules, pflagParse args (registered E) = .ok o ∧
      E.parse body = .ok schedules ∧
      ∃ s ∈ schedules, ∃ h1, ev ∈ (generateUnit E o s h1).trace := by
  rw [main_run] at hev
  cases hp : pflagParse args (registered E) with
  | error e => simp [hp] at hev
  | ok o =>
    simp only [hp] at hev
    split at hev
    · simp at hev; subst hev; cases hgen
    · split at hev
      · simp at hev; subst hev; cases hgen
      · split at hev
        · simp only [List.mem_cons, List.mem_singleton, List.not_mem_nil, or_false] at hev
          rcases hev with rfl | rfl <;> cases hgen
        · rw [mainWith_run] at hev
          cases hrd : E.readFile (h ++ [Event.stat o.outdir none]) o.filename with
          | err e =>
            simp only [hrd, List.mem_cons, List.mem_singleton, List.not_mem_nil, or_false] at hev
            rcases hev with rfl | rfl | rfl <;> cases hgen
          | ok body =>
            cases hps : E.parse body with
            | err e =>
              simp only [hrd, hps, List.mem_cons, List.mem_singleton, List.not_mem_nil,
                or_false] at hev
              rcases hev with rfl | rfl | rfl | rfl <;> cases hgen
            | ok schedules =>
              simp only [hrd, hps, List.mem_cons] at hev
              rcases hev with rfl | rfl | rfl | hev
              · cases hgen
              · cases hgen
              · cases hgen
              · rcases bind_mem _ _ _ ev hev with hev | ⟨timers, hev⟩
                · obtain ⟨s, hs, h1, hev1⟩ := generateUnits_mem E o schedules [] _ ev hev
                  exact ⟨o, body, schedules, rfl, hps, s, hs, h1, hev1⟩
                · rw [activate_no_generation E o timers _ ev hev] at hgen
                  cases hgen

/-- In a run that gets as far as the loop, every conversion, generation and
write belongs to the iteration of one of the schedules. -/
theorem main_mem_of_reachesLoop {S : Type} (E : Env S) (args : List GoString) (o : Opts)
    (body : GoString) (schedules : List S) (hr : ReachesLoop E args o body schedules)
    (ev : Event) (hev : ev ∈ (main E args []).trace) (hgen : ev.isGeneration = true) :
    ∃ s ∈ schedules, ∃ h1, ev ∈ (generateUnit E o s h1).trace := by
  rw [main_of_reachesLoop E args o body schedules hr] at hev
  simp only [List.mem_append] at hev
  rcases hev with hev | hev
  · simp only [prelude, List.mem_cons, List.mem_singleton, List.not_mem_nil, or_false] at hev
    rcases hev with rfl | rfl | rfl <;> cases hgen
  · rcases bind_mem _ _ _ ev hev with hev | ⟨timers, hev⟩
    · exact generateUnits_mem E o schedules [] _ ev hev
    · rw [activate_no_generation E o timers _ ev hev] at hgen
      cases hgen

/-- On the test double every parsed schedule has a digest of 64 bytes. -/
theorem demoEnv_digests : ∀ body schedules, demoEnv.parse body = .ok schedules →
    ∀ s ∈ schedules, 12 ≤ (demoEnv.sha256Sum s).length := by
  intro body schedules hp s hs
  simp only [demoEnv] at hp ⊢
  split_ifs at hp
  · cases hp
    simp only [List.mem_cons, List.mem_singleton, List.not_mem_nil, or_false] at hs
    rcases hs with rfl | rfl <;> decide
  · cases hp
    simp only [List.mem_cons, List.mem_singleton, List.not_mem_nil, or_false] at hs
    rcases hs with rfl | rfl | rfl <;> decide
  · cases hp
    simp at hs

/-- A run whose first failed conversion is the one of `s`, with no generation
and no write failing before it: the files written are the service file and
the timer file of each schedule before `s`, in order, and there is no other
call of `WriteFile`. -/
theorem main_files_before_failure {S : Type} (E : Env S) (args : List GoString) (o : Opts)
    (body : GoString) (pre : List S) (s : S) (post : List S) (e : GoError)
    (hr : ReachesLoop E args o body (pre ++ s :: post))
    (hlen : ∀ p ∈ pre, 12 ≤ (E.sha256Sum p).length)
    (hpre : ∀ p ∈ pre, ∃ c, E.convertToSystemdCalendar p = .ok c)
    (hconv : E.convertToSystemdCalendar s = .err e)
    (hok : ∀ ev ∈ (main E args []).trace, ev.failed = true → ∃ r, ev = Event.convert r) :
    exitCode (main E args []).outcome = 1 ∧
      (filesWritten (main E args []).trace).map Prod.fst
        = pre.flatMap (fun p => [servicePath E o p, timerPath E o p]) ∧
      (main E args []).trace.countP Event.isWrite = 2 * pre.length ∧
      (∀ ev ∈ (main E args []).trace, ev.isManager = false) := by
  have hmain := main_of_reachesLoop E args o body (pre ++ s :: post) hr
  obtain ⟨rest, hrest⟩ := bind_trace (generateUnits E o (pre ++ s :: post) []) (activate E o)
    (prelude o body)
  obtain ⟨t, ht, hfiles, hcount⟩ := generateUnits_convert_failure E o pre s post e []
    (prelude o body) hlen hpre hconv (by
      intro ev hev hf
      refine hok ev ?_ hf
      rw [hmain, hrest]
      simp [hev])
  have hexit : (generateUnits E o (pre ++ s :: post) [] (prelude o body)).outcome = .exit 1 := by
    rw [ht]
  have hrun : main E args []
      = ⟨prelude o body ++ (t ++ [Event.convert (.err e), Event.stderr e]), .exit 1⟩ := by
    rw [hmain, bind_of_exit _ _ _ _ hexit, ht]
  have hnm := generateUnits_no_manager E o (pre ++ s :: post) [] (prelude o body)
  rw [ht] at hnm
  rw [hrun]
  refine ⟨rfl, ?_, ?_, ?_⟩
  · simp only [filesWritten, List.filterMap_append, List.map_append] at hfiles ⊢
    rw [hfiles]
    simp [prelude, Event.written?]
  · simp only [List.countP_append, hcount]
    simp [prelude, List.countP_cons, Event.isWrite]
  · intro ev hev
    simp only [List.mem_append] at hev
    rcases hev with hev | hev
    · simp only [prelude, List.mem_cons, List.mem_singleton, List.not_mem_nil, or_false] at hev
      rcases hev with rfl | rfl | rfl <;> rfl
    · exact hnm ev (by simpa using hev)

/-- No call takes a file away: a file known to exist before a run, or written
during it, is known to exist after it. -/
theorem existsAfter_keeps (trace : List Event) (known : GoString → Bool) (p : GoString)
    (h : known p = true ∨ p ∈ (filesWritten trace).map Prod.fst) :
    existsAfter known trace p = true := by
  induction trace generalizing known with
  | nil =>
    rcases h with h | h
    · exact h
    · simp [filesWritten] at h
  | cons ev t ih =>
    have hstep : existsAfter known (ev :: t) = existsAfter (ev.keeps known) t := rfl
    rw [hstep]
    apply ih
    cases ev with
    | writeFile path data perm r =>
      cases r with
      | some e =>
        rcases h with h | h
        · exact Or.inl h
        · exact Or.inr (by simpa [filesWritten, Event.written?] using h)
      | none =>
        rcases h with h | h
        · left
          simp [Event.keeps, h]
        · simp only [filesWritten, List.filterMap_cons, Event.written?, List.map_cons,
            List.mem_cons] at h
          rcases h with h | h
          · left
            simp [Event.keeps, h]
          · exact Or.inr h
    | _ =>
      rcases h with h | h
      · exact Or.inl h
      · exact Or.inr (by simpa [filesWritten, Event.written?] using h)

/-- The loop up to the first schedule whose conversion fails, whatever else
fails before it: status 1, and the calls of `WriteFile` are an initial part
of the service and timer files of the schedules before it. -/
theorem generateUnits_until_convert_failure {S : Type} (E : Env S) (o : Opts) (pre : List S)
    (s : S) (post : List S) (e : GoError) (timers : List GoString) (h : List Event)
    (hlen : ∀ p ∈ pre, 12 ≤ (E.sha256Sum p).length)
    (hpre : ∀ p ∈ pre, ∃ c, E.convertToSystemdCalendar p = .ok c)
    (hconv : E.convertToSystemdCalendar s = .err e) :
    (generateUnits E o (pre ++ s :: post) timers h).outcome = .exit 1 ∧
      writeCalls (generateUnits E o (pre ++ s :: post) timers h).trace
        <+: pre.flatMap (fun p => [servicePath E o p, timerPath E o p]) := by
  induction pre generalizing timers h with
  | nil =>
    have hrun := generateUnits_cons_exit E o s post timers h _ 1
      (generateUnit_convert_err E o s h e hconv)
    rw [List.nil_append, hrun]
    exact ⟨rfl, ⟨[], rfl⟩⟩
  | cons p pre ih =>
    have hlen0 := hlen p (List.mem_cons_self _ _)
    obtain ⟨c0, hc0⟩ := hpre p (List.mem_cons_self _ _)
    rw [List.cons_append, List.flatMap_cons]
    rcases generateUnit_cases E o p h hlen0 with ⟨e1, hc, -⟩ | ⟨c, e1, -, -, hrun⟩ |
      ⟨c, sv, e1, -, -, hrun⟩ | ⟨c, sv, e1, -, -, -, hrun⟩ | ⟨c, sv, t, e1, -, -, -, hrun⟩ |
      ⟨c, sv, t, -, -, -, hrun⟩
    · rw [hc0] at hc; cases hc
    · rw [generateUnits_cons_exit E o p _ timers h _ _ hrun]
      exact ⟨rfl, ⟨_, rfl⟩⟩
    · rw [generateUnits_cons_exit E o p _ timers h _ _ hrun]
      exact ⟨rfl, ⟨_, rfl⟩⟩
    · rw [generateUnits_cons_exit E o p _ timers h _ _ hrun]
      exact ⟨rfl, ⟨_, rfl⟩⟩
    · rw [generateUnits_cons_exit E o p _ timers h _ _ hrun]
      exact ⟨rfl, ⟨_, rfl⟩⟩
    · rw [generateUnits_cons_ret E o p _ timers h _ _ hrun]
      obtain ⟨hexit, rest, hrest⟩ := ih (timers ++ [unitName E p ++ ".timer".toList]) _
        (fun q hq => hlen q (List.mem_cons_of_mem _ hq))
        (fun q hq => hpre q (List.mem_cons_of_mem _ hq))
      refine ⟨hexit, rest, ?_⟩
      simp only [writeCalls, List.filterMap_append] at hrest ⊢
      rw [List.append_assoc, hrest]
      rfl

/-! ## The claims -/

/-- C1: in a run that gets as far as the loop, with every digest of at least
12 bytes, the slice `[0:12]` is in range for every schedule and `main` does
not panic; every name passed to `GenerateService` is `cron-` followed by the
first 12 bytes of the digest of a schedule; every call of `WriteFile` writes
either the text of `GenerateService` to the join of the output directory and
`<name>.service`, or the text of `GenerateTimer` to the join of the output
directory and `<name>.timer`; when conversion, generation and writing succeed
the files written are exactly these two per schedule, in order; and two
schedules have the same name and the same two paths if and only if their
digests agree on the first 12 bytes. -/
theorem main_unit_names {S : Type} (E : Env S) (args : List GoString) (o : Opts)
    (body : GoString) (schedules : List S) (hr : ReachesLoop E args o body schedules)
    (hlen : ∀ s ∈ schedules, 12 ≤ (E.sha256Sum s).length) :
    (∀ s ∈ schedules, slice (E.sha256Sum s) 0 12 = some ((E.sha256Sum s).take 12) ∧
        ((E.sha256Sum s).take 12).length = 12) ∧
    (main E args []).outcome ≠ .panic ∧
    (∀ name command after r,
      Event.generateService name command after r ∈ (main E args []).trace →
        ∃ s ∈ schedules, name = "cron-".toList ++ (E.sha256Sum s).take 12) ∧
    (∀ path data perm r, Event.writeFile path data perm r ∈ (main E args []).trace →
      ∃ s ∈ schedules,
        (path = E.join o.outdir
            ("cron-".toList ++ (E.sha256Sum s).take 12 ++ ".service".toList) ∧
          E.generateService ("cron-".toList ++ (E.sha256Sum s).take 12) (E.command s) o.after
            = .ok data) ∨
        (path = E.join o.outdir
            ("cron-".toList ++ (E.sha256Sum s).take 12 ++ ".timer".toList) ∧
          ∃ calendar, E.convertToSystemdCalendar s = .ok calendar ∧
            E.generateTimer ("cron-".toList ++ (E.sha256Sum s).take 12) calendar = .ok data)) ∧
    ((∀ ev ∈ (main E args []).trace, ev.failed = true → ev.isManager = true) →
      filesWritten (main E args []).trace = schedules.flatMap (unitFiles E o)) ∧
    (∀ s1 ∈ schedules, ∀ s2 ∈ schedules,
      (unitName E s1 = unitName E s2 ∧ servicePath E o s1 = servicePath E o s2 ∧
          timerPath E o s1 = timerPath E o s2) ↔
        (E.sha256Sum s1).take 12 = (E.sha256Sum s2).take 12) := by
  refine ⟨?_, ?_, ?_, ?_, ?_, ?_⟩
  · intro s hs
    exact ⟨slice_take _ (hlen s hs), by simp [List.length_take, hlen s hs]⟩
  · rw [main_of_reachesLoop E args o body schedules hr]
    rcases generate_activate_outcome E o schedules (prelude o body) hlen with ⟨h1, -⟩ | ⟨h1, -⟩ <;>
      simp [h1]
  · intro name command after r hev
    obtain ⟨s, hs, h1, hev1⟩ := main_mem_of_reachesLoop E args o body schedules hr _ hev rfl
    exact ⟨s, hs, ((generateUnit_events E o s h1 (hlen s hs)).1 _ _ _ _ hev1).1⟩
  · intro path data perm r hev
    obtain ⟨s, hs, h1, hev1⟩ := main_mem_of_reachesLoop E args o body schedules hr _ hev rfl
    exact ⟨s, hs, ((generateUnit_events E o s h1 (hlen s hs)).2 _ _ _ _ hev1).2⟩
  · intro hok
    obtain ⟨hret, hnf, hmain⟩ := main_generated E args o body schedules hr hlen hok
    obtain ⟨hfiles, -, -⟩ := generateUnits_files E o schedules [] (prelude o body) hlen hnf
    have hnw := activate_no_write E o (schedules.map (timerUnit E))
      (prelude o body ++ (generateUnits E o schedules [] (prelude o body)).trace)
    rw [hmain]
    simp only [filesWritten, List.filterMap_append] at hfiles ⊢
    rw [hfiles]
    have h1 : List.filterMap Event.written? (prelude o body) = [] := rfl
    have h2 : List.filterMap Event.written? (activate E o (schedules.map (timerUnit E))
        (prelude o body ++ (generateUnits E o schedules [] (prelude o body)).trace)).trace = [] := by
      rw [List.filterMap_eq_nil_iff]
      intro ev hev
      have := hnw ev hev
      cases ev <;> simp_all [Event.written?, Event.isWrite]
    rw [h1, h2]
    simp
  · intro s1 _ s2 _
    constructor
    · rintro ⟨hname, -, -⟩
      exact List.append_cancel_left hname
    · intro hd
      simp only [unitName, servicePath, timerPath, hd, and_self]

/-- C1, on the test double: the two entries of the crontab `crontab`. -/
theorem main_unit_names_witness :
    (main demoEnv ["-f".toList, "crontab".toList, "-o".toList, "/tmp/units".toList] []).outcome
      ≠ .panic ∧
    filesWritten
        (main demoEnv ["-f".toList, "crontab".toList, "-o".toList, "/tmp/units".toList] []).trace
      = [demoReport, demoBackup].flatMap
          (unitFiles demoEnv ⟨[], "crontab".toList, "/tmp/units".toList, false⟩) ∧
    (filesWritten
        (main demoEnv ["-f".toList, "crontab".toList, "-o".toList, "/tmp/units".toList] []).trace).map
        Prod.fst
      = ["/tmp/units/cron-3f2a9c0d5e7b.service".toList,
          "/tmp/units/cron-3f2a9c0d5e7b.timer".toList,
          "/tmp/units/cron-a41b7c22d90e.service".toList,
          "/tmp/units/cron-a41b7c22d90e.timer".toList] :=
  have h := main_unit_names demoEnv
    ["-f".toList, "crontab".toList, "-o".toList, "/tmp/units".toList]
    ⟨[], "crontab".toList, "/tmp/units".toList, false⟩ demoCrontab [demoReport, demoBackup]
    ⟨rfl, by decide, by decide, rfl, rfl, rfl⟩ (by decide)
  ⟨h.2.1, h.2.2.2.2.1 (by decide), by decide⟩

/-- C2 (the code departs from the claim): no flag is registered with
`&opts.after`, so `opts.after` is still empty after flag parsing and every
call of `GenerateService` receives the empty dependency, whatever follows
`--after` on the command line. On the test double, `--after network.target -f
crontab` leaves `opts.after` empty and generates both services with the empty
dependency; the value of `--after` went to `opts.filename`, where `-f` has
overwritten it. -/
theorem main_after_ignored :
    (∀ (S : Type) (E : Env S) (args : List GoString) (name command after : GoString)
        (r : Result GoString),
      Event.generateService name command after r ∈ (main E args []).trace → after = []) ∧
    pflagParse ["--after".toList, "network.target".toList, "-f".toList, "crontab".toList]
        (registered demoEnv)
      = .ok ⟨[], "crontab".toList, "/etc/systemd/system".toList, false⟩ ∧
    (main demoEnv ["--after".toList, "network.target".toList, "-f".toList, "crontab".toList]
        []).trace.filter (fun ev => match ev with | .generateService _ _ _ _ => true | _ => false)
      = [Event.generateService "cron-3f2a9c0d5e7b".toList "/usr/bin/report.sh".toList []
            (demoEnv.generateService "cron-3f2a9c0d5e7b".toList "/usr/bin/report.sh".toList []),
          Event.generateService "cron-a41b7c22d90e".toList "/usr/bin/backup.sh".toList []
            (demoEnv.generateService "cron-a41b7c22d90e".toList "/usr/bin/backup.sh".toList [])] := by
  refine ⟨?_, rfl, by decide⟩
  intro S E args name command after r hev
  obtain ⟨o, body, schedules, hp, -, s, -, h1, hev1⟩ :=
    main_mem_generation E args [] _ hev rfl
  have hafter : o.after = [] := (pflagParse_frame args (registered E) o hp).1
  rw [generateUnit_run] at hev1
  repeat' split at hev1
  all_goals
    simp only [List.mem_cons, List.mem_singleton, List.not_mem_nil, or_false, reduceCtorEq,
      false_or, Event.generateService.injEq] at hev1
  all_goals
    rw [hev1.2.2.1, hafter]

/-- C3: in every run of `reloadSystemd`, whatever the timers and whatever the
service manager answers, every call of `StartUnit` comes after a call of
`Reload` (one that succeeded), `Reload` is called at most once, and when
`Reload` reports an error no `StartUnit` is called and `reloadSystemd` returns
that error. -/
theorem reloadSystemd_reload_before_start {S : Type} (E : Env S) (timers : List GoString)
    (h : List Event) :
    (∀ (i : Nat) name err, (reloadSystemd E timers h).trace[i]? = some (Event.startUnit name err) →
        ∃ j : Nat, j < i ∧ (reloadSystemd E timers h).trace[j]? = some (Event.reload none)) ∧
    (reloadSystemd E timers h).trace.countP Event.isReload ≤ 1 ∧
    (∀ e, Event.reload (some e) ∈ (reloadSystemd E timers h).trace →
        (∀ ev ∈ (reloadSystemd E timers h).trace, ev.isStartUnit = false) ∧
        (reloadSystemd E timers h).outcome = .ret (some e)) := by
  have hrun := reloadSystemd_run E timers h
  cases hc : E.newConn h with
  | some err =>
    simp only [hc] at hrun
    rw [hrun]
    refine ⟨?_, ?_, ?_⟩
    · intro i name err1 hi
      match i, hi with
      | 0, hi => simp at hi
      | 1, hi => simp at hi
      | i + 2, hi => simp at hi
    · simp [List.countP_cons, Event.isReload]
    · intro e he
      simp at he
  | none =>
    cases hr : E.reload (h ++ [Event.newConn none]) with
    | some err =>
      simp only [hc, hr] at hrun
      rw [hrun]
      refine ⟨?_, ?_, ?_⟩
      · intro i name err1 hi
        match i, hi with
        | 0, hi => simp at hi
        | 1, hi => simp at hi
        | 2, hi => simp at hi
        | i + 3, hi => simp at hi
      · simp [List.countP_cons, Event.isReload]
      · intro e he
        simp at he
        subst he
        simp [Event.isStartUnit]
    | none =>
      have hst := startUnits_trace E timers (h ++ [Event.newConn none, Event.reload none])
      simp only [hc, hr] at hrun
      rw [hrun]
      refine ⟨?_, ?_, ?_⟩
      · intro i name err1 hi
        match i, hi with
        | 0, hi => simp at hi
        | 1, hi => simp at hi
        | i + 2, _ => exact ⟨1, by omega, by simp⟩
      · have h0 : List.countP Event.isReload
            (startUnits E timers (h ++ [Event.newConn none, Event.reload none])).trace = 0 := by
          rw [List.countP_eq_zero]
          intro ev hev
          obtain ⟨name, err, rfl⟩ := hst ev hev
          simp [Event.isReload]
        simp [List.countP_cons, List.countP_append, Event.isReload, h0]
      · intro e he
        exfalso
        simp only [List.mem_cons, List.mem_append, List.mem_singleton] at he
        rcases he with he | he | he | he | he
        · cases he
        · cases he
        · obtain ⟨name, err, hev⟩ := hst _ he
          cases hev
        · cases he
        · cases he

/-- C3, on the test double: with two timers the first `StartUnit` is the
third call and `Reload` the second; and when `Reload` is refused no timer is
started and the refusal is returned. -/
theorem reloadSystemd_reload_before_start_witness :
    (∃ j : Nat, j < 2 ∧
      (reloadSystemd demoEnv
        ["cron-3f2a9c0d5e7b.timer".toList, "cron-a41b7c22d90e.timer".toList] []).trace[j]?
        = some (Event.reload none)) ∧
    (reloadSystemd demoEnv
        ["cron-3f2a9c0d5e7b.timer".toList, "cron-a41b7c22d90e.timer".toList] []).trace.countP
        Event.isReload ≤ 1 ∧
    ((∀ ev ∈ (reloadSystemd demoReloadFails
          ["cron-3f2a9c0d5e7b.timer".toList, "cron-a41b7c22d90e.timer".toList] []).trace,
        ev.isStartUnit = false) ∧
      (reloadSystemd demoReloadFails
          ["cron-3f2a9c0d5e7b.timer".toList, "cron-a41b7c22d90e.timer".toList] []).outcome
        = .ret (some "reload refused".toList)) :=
  ⟨(reloadSystemd_reload_before_start demoEnv
        ["cron-3f2a9c0d5e7b.timer".toList, "cron-a41b7c22d90e.timer".toList] []).1 2
      "cron-3f2a9c0d5e7b.timer".toList none (by decide),
    (reloadSystemd_reload_before_start demoEnv
        ["cron-3f2a9c0d5e7b.timer".toList, "cron-a41b7c22d90e.timer".toList] []).2.1,
    (reloadSystemd_reload_before_start demoReloadFails
        ["cron-3f2a9c0d5e7b.timer".toList, "cron-a41b7c22d90e.timer".toList] []).2.2
      "reload refused".toList (by decide)⟩

/-- C4: when the connection opens and `Reload` succeeds, `reloadSystemd`
starts the timers in list order; if no `StartUnit` fails it starts each timer
once and returns nil, and if the first failing `StartUnit` is the one of `t`
it has started exactly the timers before `t` and `t`, starts none of the
timers after `t`, and returns the error of that call. -/
theorem reloadSystemd_fail_fast {S : Type} (E : Env S) (h : List Event)
    (hconn : E.newConn h = none) (hreload : E.reload (h ++ [Event.newConn none]) = none) :
    (∀ timers : List GoString,
      (∀ pre t post, timers = pre ++ t :: post →
        E.startUnit (h ++ [Event.newConn none, Event.reload none]
          ++ pre.map (fun u => Event.startUnit u none)) t = none) →
      reloadSystemd E timers h
        = ⟨[Event.newConn none, Event.reload none]
            ++ timers.map (fun u => Event.startUnit u none) ++ [Event.close], .ret none⟩) ∧
    (∀ (pre : List GoString) (t : GoString) (post : List GoString) (e : GoError),
      (∀ pre1 u post1, pre = pre1 ++ u :: post1 →
        E.startUnit (h ++ [Event.newConn none, Event.reload none]
          ++ pre1.map (fun u => Event.startUnit u none)) u = none) →
      E.startUnit (h ++ [Event.newConn none, Event.reload none]
          ++ pre.map (fun u => Event.startUnit u none)) t = some e →
      reloadSystemd E (pre ++ t :: post) h
        = ⟨[Event.newConn none, Event.reload none]
            ++ pre.map (fun u => Event.startUnit u none)
            ++ [Event.startUnit t (some e), Event.close], .ret (some e)⟩) := by
  constructor
  · intro timers hok
    rw [reloadSystemd_run, hconn]
    simp only [hreload]
    rw [startUnits_all E timers _ (by simpa using hok)]
    simp
  · intro pre t post e hpre hfail
    rw [reloadSystemd_run, hconn]
    simp only [hreload]
    rw [startUnits_first_failure E pre t post e _ (by simpa using hpre) (by simpa using hfail)]
    simp

/-- C4, on the test double: three timers, the service manager refuses the
second; and two timers that both start. -/
theorem reloadSystemd_fail_fast_witness :
    reloadSystemd demoStartFails
        ["cron-3f2a9c0d5e7b.timer".toList, "cron-a41b7c22d90e.timer".toList,
          "cron-5c0e8a1f3b2d.timer".toList] []
      = ⟨[Event.newConn none, Event.reload none,
            Event.startUnit "cron-3f2a9c0d5e7b.timer".toList none,
            Event.startUnit "cron-a41b7c22d90e.timer".toList (some "unit not found".toList),
            Event.close],
          .ret (some "unit not found".toList)⟩ ∧
    reloadSystemd demoEnv
        ["cron-3f2a9c0d5e7b.timer".toList, "cron-a41b7c22d90e.timer".toList] []
      = ⟨[Event.newConn none, Event.reload none,
            Event.startUnit "cron-3f2a9c0d5e7b.timer".toList none,
            Event.startUnit "cron-a41b7c22d90e.timer".toList none,
            Event.close],
          .ret none⟩ :=
  ⟨(reloadSystemd_fail_fast demoStartFails [] rfl rfl).2
      ["cron-3f2a9c0d5e7b.timer".toList] "cron-a41b7c22d90e.timer".toList
      ["cron-5c0e8a1f3b2d.timer".toList] "unit not found".toList
      (by
        intro pre1 u post1 hp
        have hu : u ∈ ["cron-3f2a9c0d5e7b.timer".toList] := by rw [hp]; simp
        rw [List.mem_singleton] at hu
        subst hu
        rfl)
      rfl,
    (reloadSystemd_fail_fast demoEnv [] rfl rfl).1
      ["cron-3f2a9c0d5e7b.timer".toList, "cron-a41b7c22d90e.timer".toList]
      (fun _ _ _ _ => rfl)⟩

/-- C5: in a run that gets as far as the loop with the schedules returned by
`crontab.Parse`, and in which conversion, generation and writing all succeed,
the files written are, in this order, the service file and the timer file of
the first schedule, of the second, and so on (and there is no other call of
`WriteFile`); the list the loop builds is the list of the timer names, one per
schedule in file order; and with `--reload` on, that list is the argument of
`reloadSystemd`. -/
theorem main_generation_order {S : Type} (E : Env S) (args : List GoString) (o : Opts)
    (body : GoString) (schedules : List S) (hr : ReachesLoop E args o body schedules)
    (hlen : ∀ s ∈ schedules, 12 ≤ (E.sha256Sum s).length)
    (hok : ∀ ev ∈ (main E args []).trace, ev.failed = true → ev.isManager = true) :
    (filesWritten (main E args []).trace).map Prod.fst
        = schedules.flatMap (fun s => [servicePath E o s, timerPath E o s]) ∧
      (main E args []).trace.countP Event.isWrite = 2 * schedules.length ∧
      (generateUnits E o schedules [] (prelude o body)).outcome
        = .ret (schedules.map (fun s =>
            "cron-".toList ++ (E.sha256Sum s).take 12 ++ ".timer".toList)) ∧
      (o.reload = true → ∃ tail,
        (main E args []).trace =
          prelude o body ++ (generateUnits E o schedules [] (prelude o body)).trace ++
            (reloadSystemd E (schedules.map (fun s =>
                "cron-".toList ++ (E.sha256Sum s).take 12 ++ ".timer".toList))
              (prelude o body ++ (generateUnits E o schedules [] (prelude o body)).trace)).trace
            ++ tail ∧
        (tail = [] ∨ ∃ e, tail = [Event.stderr e])) := by
  obtain ⟨hret, hnf, hmain⟩ := main_generated E args o body schedules hr hlen hok
  obtain ⟨-, hfiles, hcount⟩ := generateUnits_files E o schedules [] (prelude o body) hlen hnf
  have hnw := activate_no_write E o (schedules.map (timerUnit E))
    (prelude o body ++ (generateUnits E o schedules [] (prelude o body)).trace)
  have hmap : schedules.map (fun s => "cron-".toList ++ (E.sha256Sum s).take 12 ++ ".timer".toList)
      = schedules.map (timerUnit E) := rfl
  rw [hmap]
  refine ⟨?_, ?_, hret, ?_⟩
  · rw [hmain]
    simp only [filesWritten, List.filterMap_append, List.map_append] at hfiles ⊢
    rw [hfiles]
    have h1 : List.filterMap Event.written? (prelude o body) = [] := rfl
    have h2 : List.filterMap Event.written? (activate E o (schedules.map (timerUnit E))
        (prelude o body ++ (generateUnits E o schedules [] (prelude o body)).trace)).trace = [] := by
      rw [List.filterMap_eq_nil_iff]
      intro ev hev
      have := hnw ev hev
      cases ev <;> simp_all [Event.written?, Event.isWrite]
    rw [h1, h2]
    simp
  · rw [hmain]
    simp only [List.countP_append, hcount]
    have h1 : List.countP Event.isWrite (prelude o body) = 0 := rfl
    have h2 : List.countP Event.isWrite (activate E o (schedules.map (timerUnit E))
        (prelude o body ++ (generateUnits E o schedules [] (prelude o body)).trace)).trace = 0 := by
      rw [List.countP_eq_zero]
      intro ev hev
      simp [hnw ev hev]
    rw [h1, h2]
    simp
  · intro hon
    obtain ⟨tail, htr, htail⟩ := activate_on_shape E o (schedules.map (timerUnit E))
      (prelude o body ++ (generateUnits E o schedules [] (prelude o body)).trace) hon
    refine ⟨tail, ?_, htail⟩
    rw [hmain]
    simp only [htr, List.append_assoc]

/-- C5, on the test double: the crontab `crontab` holds two entries. -/
theorem main_generation_order_witness :
    (filesWritten (main demoEnv ["-f".toList, "crontab".toList, "--reload".toList] []).trace).map
        Prod.fst
      = ["/etc/systemd/system/cron-3f2a9c0d5e7b.service".toList,
          "/etc/systemd/system/cron-3f2a9c0d5e7b.timer".toList,
          "/etc/systemd/system/cron-a41b7c22d90e.service".toList,
          "/etc/systemd/system/cron-a41b7c22d90e.timer".toList] ∧
    (main demoEnv ["-f".toList, "crontab".toList, "--reload".toList] []).trace.countP
        Event.isWrite = 4 :=
  have h := main_generation_order demoEnv ["-f".toList, "crontab".toList, "--reload".toList]
    ⟨[], "crontab".toList, "/etc/systemd/system".toList, true⟩ demoCrontab
    [demoReport, demoBackup]
    ⟨rfl, by decide, by decide, rfl, rfl, rfl⟩ (by decide) (by decide)
  ⟨h.1, h.2.1⟩

/-- C6: when pflag accepts the arguments, `parseArgs` returns nil, the crontab
file is read and `crontab.Parse` returns an error on its text, `main` has
called nothing but `os.Stat`, `ioutil.ReadFile` and `crontab.Parse`: it writes
no file, makes no call to the service manager, prints the error and exits
with status 1, whatever the text holds before the malformed line. -/
theorem main_parse_error {S : Type} (E : Env S) (args : List GoString) (o : Opts)
    (body : GoString) (e : GoError)
    (hflags : pflagParse args (registered E) = .ok o)
    (hfile : o.filename ≠ []) (houtdir : o.outdir ≠ [])
    (hstat : E.stat [] o.outdir = none)
    (hread : E.readFile [.stat o.outdir none] o.filename = .ok body)
    (hparse : E.parse body = .err e) :
    main E args [] =
        ⟨[.stat o.outdir none, .readFile o.filename (.ok body), .parse body (some e), .stderr e],
          .exit 1⟩ ∧
      (∀ ev ∈ (main E args []).trace, ev.isWrite = false ∧ ev.isManager = false) ∧
      exitCode (main E args []).outcome = 1 := by
  have hrun : main E args [] =
      ⟨[.stat o.outdir none, .readFile o.filename (.ok body), .parse body (some e), .stderr e],
        .exit 1⟩ := by
    rw [main_run, hflags]
    simp only [hfile, houtdir, if_false, hstat]
    rw [mainWith_run]
    simp only [List.nil_append, hread, hparse]
  refine ⟨hrun, ?_, ?_⟩
  · rw [hrun]
    intro ev hev
    simp only [List.mem_cons, List.mem_singleton, List.not_mem_nil, or_false] at hev
    rcases hev with rfl | rfl | rfl | rfl <;> exact ⟨rfl, rfl⟩
  · rw [hrun]; rfl

/-- C6, on the test double: the crontab `broken` holds a well-formed line and
then the line `99 0 * * * /bin/true`. -/
theorem main_parse_error_witness :
    demoEnv.parse demoBroken = .err "line 2: minute 99 out of range".toList ∧
    (∀ ev ∈ (main demoEnv ["-f".toList, "broken".toList] []).trace,
      ev.isWrite = false ∧ ev.isManager = false) ∧
    exitCode (main demoEnv ["-f".toList, "broken".toList] []).outcome = 1 :=
  ⟨by decide,
    (main_parse_error demoEnv ["-f".toList, "broken".toList]
      ⟨[], "broken".toList, "/etc/systemd/system".toList, false⟩ demoBroken
      "line 2: minute 99 out of range".toList rfl (by decide) (by decide) rfl rfl rfl).2⟩

/-- C7, as amended: pflag rejects the arguments and the process exits inside
`f.Parse` with the status of pflag (2 for a rejected command line); or pflag
accepts them, and then the exit status is 1 if a step fails (`parseArgs` returns an
error, or a call of `os.Stat`, `ReadFile`, `Parse`, `ConvertToSystemdCalendar`,
`GenerateService`, `GenerateTimer`, `WriteFile`, `NewConn`, `Reload` or
`StartUnit` reports one) and 0 if none does. The digests of the parsed
schedules have at least 12 bytes, as every SHA-256 hex digest has. -/
theorem main_exit_code {S : Type} (E : Env S) (args : List GoString)
    (hlen : ∀ body schedules, E.parse body = .ok schedules →
      ∀ s ∈ schedules, 12 ≤ (E.sha256Sum s).length) :
    (∀ e, pflagParse args (registered E) = .error e →
      main E args [] = ⟨[], .exit (pflagExitCode E e)⟩) ∧
    (∀ o, pflagParse args (registered E) = .ok o →
      (((∃ err, (parseArgs E args []).outcome = .ret (o, some err)) ∨
          (∃ ev ∈ (main E args []).trace, ev.failed = true)) →
        exitCode (main E args []).outcome = 1) ∧
      (((parseArgs E args []).outcome = .ret (o, none) ∧
          (∀ ev ∈ (main E args []).trace, ev.failed = false)) →
        exitCode (main E args []).outcome = 0)) := by
  constructor
  · intro e he
    rw [main_run, he]
  · intro o ho
    have key : (exitCode (main E args []).outcome = 1 ∧
          ((∃ err, (parseArgs E args []).outcome = .ret (o, some err)) ∨
            ∃ ev ∈ (main E args []).trace, ev.failed = true)) ∨
        (exitCode (main E args []).outcome = 0 ∧
          (parseArgs E args []).outcome = .ret (o, none) ∧
          ∀ ev ∈ (main E args []).trace, ev.failed = false) := by
      rw [main_run, parseArgs_run, ho]
      simp only []
      by_cases hf : o.filename = []
      · rw [if_pos hf, if_pos hf]
        left
        exact ⟨rfl, Or.inl ⟨_, rfl⟩⟩
      · rw [if_neg hf, if_neg hf]
        by_cases hd : o.outdir = []
        · rw [if_pos hd, if_pos hd]
          left
          exact ⟨rfl, Or.inl ⟨_, rfl⟩⟩
        · rw [if_neg hd, if_neg hd]
          cases hs : E.stat [] o.outdir with
          | some e =>
            left
            exact ⟨rfl, Or.inl ⟨_, rfl⟩⟩
          | none =>
            simp only []
            rcases mainWith_outcome E o ([] ++ [Event.stat o.outdir none]) hlen with
              ⟨h1, h2⟩ | ⟨h1, ev, hev, hfl⟩
            · right
              refine ⟨by rw [h1]; rfl, trivial, ?_⟩
              intro ev hev
              simp only [List.mem_cons] at hev
              rcases hev with rfl | hev
              · rfl
              · exact h2 ev hev
            · left
              exact ⟨by rw [h1]; rfl, Or.inr ⟨ev, List.mem_cons_of_mem _ hev, hfl⟩⟩
    constructor
    · rintro hfail
      rcases key with ⟨h1, -⟩ | ⟨-, h2, h3⟩
      · exact h1
      · exfalso
        rcases hfail with ⟨err, herr⟩ | ⟨ev, hev, hfl⟩
        · rw [h2] at herr
          simp at herr
        · rw [h3 ev hev] at hfl
          cases hfl
    · rintro ⟨hnil, hnf⟩
      rcases key with ⟨-, ⟨err, herr⟩ | ⟨ev, hev, hfl⟩⟩ | ⟨h1, -, -⟩
      · rw [hnil] at herr
        simp at herr
      · rw [hnf ev hev] at hfl
        cases hfl
      · exact h1

/-- C7 as stated fails: on the argument `--bogus` the process exits inside
`f.Parse` with status 2, neither 1 nor 0. -/
theorem main_exit_code_counterexample :
    main demoEnv ["--bogus".toList] [] = ⟨[], .exit 2⟩ ∧
    exitCode (main demoEnv ["--bogus".toList] []).outcome ≠ 1 ∧
    exitCode (main demoEnv ["--bogus".toList] []).outcome ≠ 0 := by
  decide

/-- C7 as amended, on the test double: a crontab that cannot be read gives
status 1, the crontab `crontab` gives status 0, an unknown flag status 2. -/
theorem main_exit_code_witness :
    exitCode (main demoEnv ["-f".toList, "missing".toList] []).outcome = 1 ∧
    exitCode (main demoEnv ["-f".toList, "crontab".toList, "--reload".toList] []).outcome = 0 ∧
    main demoEnv ["--bogus".toList] []
      = ⟨[], .exit (pflagExitCode demoEnv (.unknownFlag "bogus".toList))⟩ :=
  ⟨((main_exit_code demoEnv ["-f".toList, "missing".toList] demoEnv_digests).2
      ⟨[], "missing".toList, "/etc/systemd/system".toList, false⟩ rfl).1
      (Or.inr ⟨Event.readFile "missing".toList (.err "open: no such file or directory".toList),
        by decide, rfl⟩),
    ((main_exit_code demoEnv ["-f".toList, "crontab".toList, "--reload".toList]
      demoEnv_digests).2
      ⟨[], "crontab".toList, "/etc/systemd/system".toList, true⟩ rfl).2
      ⟨rfl, by decide⟩,
    (main_exit_code demoEnv ["--bogus".toList] demoEnv_digests).1 _ rfl⟩

/-- C8, as amended: activation is off by default. When no argument starts with
`--reload`, `main` makes no call to the service manager, whatever the
crontab holds. When the switch `reload` is on after flag parsing and the run
gets as far as the loop with generation and writes all succeeding, the trace
holds exactly one call of `NewConn`, the first statement of `reloadSystemd`:
before it come all the unit files, two per schedule, and no call to the
service manager; after it comes no call of `WriteFile` and no other
`NewConn`. And the switch is on whenever `--reload` is added at the end of a
command line that pflag accepts and that does not hold the word `--`. -/
theorem main_activation_optional {S : Type} (E : Env S) (args : List GoString) :
    ((∀ a ∈ args, ¬ "--reload".toList <+: a) →
      ∀ ev ∈ (main E args []).trace, ev.isManager = false) ∧
    (∀ (o : Opts) (body : GoString) (schedules : List S),
      ReachesLoop E args o body schedules → o.reload = true →
      (∀ s ∈ schedules, 12 ≤ (E.sha256Sum s).length) →
      (∀ ev ∈ (main E args []).trace, ev.failed = true → ev.isManager = true) →
      ∃ before after,
        (main E args []).trace = before ++ Event.newConn (E.newConn before) :: after ∧
        (∀ ev ∈ before, ev.isManager = false) ∧
        (∀ ev ∈ after, ev.isWrite = false ∧ ev.isNewConn = false) ∧
        (filesWritten before).map Prod.fst
          = schedules.flatMap (fun s => [servicePath E o s, timerPath E o s]) ∧
        before.countP Event.isWrite = 2 * schedules.length) ∧
    (∀ o : Opts, pflagParse args (registered E) = .ok o → "--".toList ∉ args →
      pflagParse (args ++ ["--reload".toList]) (registered E)
        = .ok { o with reload := true }) := by
  refine ⟨?_, ?_, ?_⟩
  · intro hno
    cases hp : pflagParse args (registered E) with
    | error e =>
      rw [main_run, hp]
      simp
    | ok o =>
      have hoff : o.reload = false := (pflagParse_frame args (registered E) o hp).2 hno
      exact main_reload_off E args o [] hp hoff
  · intro o body schedules hr hon hlen hok
    obtain ⟨hret, hnf, hmain⟩ := main_generated E args o body schedules hr hlen hok
    obtain ⟨-, hfiles, hcount⟩ := generateUnits_files E o schedules [] (prelude o body) hlen hnf
    obtain ⟨tail, htr, htail⟩ := activate_on_shape E o (schedules.map (timerUnit E))
      (prelude o body ++ (generateUnits E o schedules [] (prelude o body)).trace) hon
    obtain ⟨rest, hrest, hnw⟩ := reloadSystemd_shape E (schedules.map (timerUnit E))
      (prelude o body ++ (generateUnits E o schedules [] (prelude o body)).trace)
    refine ⟨prelude o body ++ (generateUnits E o schedules [] (prelude o body)).trace,
      rest ++ tail, ?_, ?_, ?_, ?_, ?_⟩
    · rw [hmain]
      simp only [htr, hrest, List.append_assoc, List.cons_append]
    · intro ev hev
      simp only [List.mem_append] at hev
      rcases hev with hev | hev
      · simp only [prelude, List.mem_cons, List.mem_singleton, List.not_mem_nil, or_false] at hev
        rcases hev with rfl | rfl | rfl <;> rfl
      · exact generateUnits_no_manager E o schedules [] (prelude o body) ev hev
    · intro ev hev
      simp only [List.mem_append] at hev
      rcases hev with hev | hev
      · exact hnw ev hev
      · rcases htail with rfl | ⟨e, rfl⟩
        · simp at hev
        · simp at hev; subst hev; exact ⟨rfl, rfl⟩
    · simp only [filesWritten, List.filterMap_append, List.map_append] at hfiles ⊢
      rw [hfiles]
      rfl
    · rw [List.countP_append, hcount]
      have h1 : List.countP Event.isWrite (prelude o body) = 0 := rfl
      rw [h1]
      simp
  · intro o hp hdash
    exact pflagParse_append_reload args (registered E) o hp hdash

/-- C8 as stated fails: on the test double, the argument lists
`-f crontab -- --reload` and `-f crontab --reload --reload=false` both contain
`--reload`, all four writes succeed and nothing fails, yet the switch is off
when line 129 tests it (after `--` the word is a positional argument; the
later `--reload=false` switches it off again) and `NewConn` is never
called. -/
theorem main_activation_optional_counterexample :
    ("--reload".toList ∈ ["-f".toList, "crontab".toList, "--".toList, "--reload".toList] ∧
      (∀ ev ∈ (main demoEnv
          ["-f".toList, "crontab".toList, "--".toList, "--reload".toList] []).trace,
        ev.failed = false) ∧
      (filesWritten (main demoEnv
          ["-f".toList, "crontab".toList, "--".toList, "--reload".toList] []).trace).map Prod.fst
        = ["/etc/systemd/system/cron-3f2a9c0d5e7b.service".toList,
            "/etc/systemd/system/cron-3f2a9c0d5e7b.timer".toList,
            "/etc/systemd/system/cron-a41b7c22d90e.service".toList,
            "/etc/systemd/system/cron-a41b7c22d90e.timer".toList] ∧
      (main demoEnv
          ["-f".toList, "crontab".toList, "--".toList, "--reload".toList] []).trace.countP
        Event.isNewConn = 0 ∧
      (main demoEnv
          ["-f".toList, "crontab".toList, "--".toList, "--reload".toList] []).outcome = .ret ()) ∧
    ("--reload".toList
        ∈ ["-f".toList, "crontab".toList, "--reload".toList, "--reload=false".toList] ∧
      (∀ ev ∈ (main demoEnv
          ["-f".toList, "crontab".toList, "--reload".toList, "--reload=false".toList] []).trace,
        ev.failed = false) ∧
      (filesWritten (main demoEnv
          ["-f".toList, "crontab".toList, "--reload".toList, "--reload=false".toList]
          []).trace).map Prod.fst
        = ["/etc/systemd/system/cron-3f2a9c0d5e7b.service".toList,
            "/etc/systemd/system/cron-3f2a9c0d5e7b.timer".toList,
            "/etc/systemd/system/cron-a41b7c22d90e.service".toList,
            "/etc/systemd/system/cron-a41b7c22d90e.timer".toList] ∧
      (main demoEnv
          ["-f".toList, "crontab".toList, "--reload".toList, "--reload=false".toList]
          []).trace.countP Event.isNewConn = 0 ∧
      (main demoEnv
          ["-f".toList, "crontab".toList, "--reload".toList, "--reload=false".toList]
          []).outcome = .ret ()) := by
  decide

/-- C8 as amended, on the test double: without `--reload` no call to the
service manager; with `--reload` the four unit files, then `NewConn`. -/
theorem main_activation_optional_witness :
    (∀ ev ∈ (main demoEnv ["-f".toList, "crontab".toList] []).trace, ev.isManager = false) ∧
    (∃ before after,
      (main demoEnv ["-f".toList, "crontab".toList, "--reload".toList] []).trace
        = before ++ Event.newConn (demoEnv.newConn before) :: after ∧
      (∀ ev ∈ before, ev.isManager = false) ∧
      (∀ ev ∈ after, ev.isWrite = false ∧ ev.isNewConn = false) ∧
      (filesWritten before).map Prod.fst
        = [demoReport, demoBackup].flatMap (fun s =>
            [servicePath demoEnv ⟨[], "crontab".toList, "/etc/systemd/system".toList, true⟩ s,
              timerPath demoEnv ⟨[], "crontab".toList, "/etc/systemd/system".toList, true⟩ s]) ∧
      before.countP Event.isWrite = 2 * [demoReport, demoBackup].length) :=
  ⟨(main_activation_optional demoEnv ["-f".toList, "crontab".toList]).1 (by decide),
    (main_activation_optional demoEnv ["-f".toList, "crontab".toList, "--reload".toList]).2.1
      ⟨[], "crontab".toList, "/etc/systemd/system".toList, true⟩ demoCrontab
      [demoReport, demoBackup] ⟨rfl, by decide, by decide, rfl, rfl, rfl⟩ rfl (by decide)
      (by decide)⟩

/-- C9 (the code departs from the claim): `--after` is registered with
`&opts.filename`. On the test double, the arguments `--after network.target`
supply no crontab file, yet `parseArgs` goes on to check the output directory
and returns nil, with `network.target` as the crontab file; and the arguments
`-f crontab --after=` supply a crontab file, yet `parseArgs` returns
`Please specify crontab file.` although the output directory exists. -/
theorem parseArgs_after_overwrites_file :
    parseArgs demoEnv ["--after".toList, "network.target".toList] []
      = ⟨[Event.stat "/etc/systemd/system".toList none],
          .ret (⟨[], "network.target".toList, "/etc/systemd/system".toList, false⟩, none)⟩ ∧
    parseArgs demoEnv ["-f".toList, "crontab".toList, "--after=".toList] []
      = ⟨[], .ret (⟨[], [], "/etc/systemd/system".toList, false⟩,
          some "Please specify crontab file.".toList)⟩ ∧
    demoEnv.stat [] "/etc/systemd/system".toList = none := by
  decide

/-- C10, as amended: in a run that gets as far as the loop with the schedules
`pre ++ s :: post`, where `s` is the first schedule whose conversion fails,
`main` exits with status 1; it makes no call to the service manager, whether
`--reload` is on or off; its calls of `WriteFile` are an initial part of the
service and timer files of the schedules of `pre`, in order, so nothing is
written for `s` or for a schedule of `post`; no file that existed before or
was written during the run is taken away; and when no generation and no write
fails before `s`, the files written are exactly the service file and the
timer file of each schedule of `pre`, with no other call of `WriteFile`. -/
theorem main_conversion_failure {S : Type} (E : Env S) (args : List GoString) (o : Opts)
    (body : GoString) (pre : List S) (s : S) (post : List S) (e : GoError)
    (hr : ReachesLoop E args o body (pre ++ s :: post))
    (hlen : ∀ p ∈ pre, 12 ≤ (E.sha256Sum p).length)
    (hpre : ∀ p ∈ pre, ∃ c, E.convertToSystemdCalendar p = .ok c)
    (hconv : E.convertToSystemdCalendar s = .err e) :
    exitCode (main E args []).outcome = 1 ∧
      (∀ ev ∈ (main E args []).trace, ev.isManager = false) ∧
      writeCalls (main E args []).trace
        <+: pre.flatMap (fun p => [servicePath E o p, timerPath E o p]) ∧
      (∀ (known : GoString → Bool) (p : GoString),
        known p = true ∨ p ∈ (filesWritten (main E args []).trace).map Prod.fst →
          existsAfter known (main E args []).trace p = true) ∧
      ((∀ ev ∈ (main E args []).trace, ev.failed = true → ∃ r, ev = Event.convert r) →
        (filesWritten (main E args []).trace).map Prod.fst
            = pre.flatMap (fun p => [servicePath E o p, timerPath E o p]) ∧
          (main E args []).trace.countP Event.isWrite = 2 * pre.length) := by
  have hmain := main_of_reachesLoop E args o body (pre ++ s :: post) hr
  obtain ⟨hexit, hcalls⟩ := generateUnits_until_convert_failure E o pre s post e []
    (prelude o body) hlen hpre hconv
  have hrun : main E args []
      = ⟨prelude o body ++ (generateUnits E o (pre ++ s :: post) [] (prelude o body)).trace,
          .exit 1⟩ := by
    rw [hmain, bind_of_exit _ _ _ _ hexit]
  refine ⟨?_, ?_, ?_, ?_, ?_⟩
  · rw [hrun]; rfl
  · rw [hrun]
    intro ev hev
    simp only [List.mem_append] at hev
    rcases hev with hev | hev
    · simp only [prelude, List.mem_cons, List.mem_singleton, List.not_mem_nil, or_false] at hev
      rcases hev with rfl | rfl | rfl <;> rfl
    · exact generateUnits_no_manager E o (pre ++ s :: post) [] (prelude o body) ev hev
  · rw [hrun]
    have h1 : writeCalls (prelude o body ++
        (generateUnits E o (pre ++ s :: post) [] (prelude o body)).trace)
        = writeCalls (generateUnits E o (pre ++ s :: post) [] (prelude o body)).trace := by
      simp only [writeCalls, List.filterMap_append]
      rfl
    rw [h1]
    exact hcalls
  · intro known p hp
    exact existsAfter_keeps _ known p hp
  · intro hok
    have h := main_files_before_failure E args o body pre s post e hr hlen hpre hconv hok
    exact ⟨h.2.1, h.2.2.1⟩

/-- C10 as stated fails: on the test double with a full disk and the crontab
`mixed`, the second schedule is the first whose conversion fails, yet no file
of the first schedule has been written when `main` exits: the write of its
service file failed. -/
theorem main_conversion_failure_counterexample :
    demoDiskFull.parse demoMixed = .ok [demoReport, demoBoth, demoBackup] ∧
    demoDiskFull.convertToSystemdCalendar demoReport = .ok "*-*-01 00:00:00".toList ∧
    demoDiskFull.convertToSystemdCalendar demoBoth
      = .err "cannot convert: day of month and day of week are both set".toList ∧
    filesWritten (main demoDiskFull ["-f".toList, "mixed".toList] []).trace = [] ∧
    (filesWritten (main demoDiskFull ["-f".toList, "mixed".toList] []).trace).map Prod.fst
      ≠ ["/etc/systemd/system/cron-3f2a9c0d5e7b.service".toList,
          "/etc/systemd/system/cron-3f2a9c0d5e7b.timer".toList] ∧
    exitCode (main demoDiskFull ["-f".toList, "mixed".toList] []).outcome = 1 := by
  refine ⟨rfl, rfl, rfl, ?_, ?_, ?_⟩ <;> decide

/-- C10 as amended, on the test double: the crontab `mixed` with `--reload`
on, first with every write succeeding, then with a full disk. -/
theorem main_conversion_failure_witness :
    (exitCode (main demoEnv ["-f".toList, "mixed".toList, "--reload".toList] []).outcome = 1 ∧
      (∀ ev ∈ (main demoEnv ["-f".toList, "mixed".toList, "--reload".toList] []).trace,
        ev.isManager = false) ∧
      (filesWritten
          (main demoEnv ["-f".toList, "mixed".toList, "--reload".toList] []).trace).map Prod.fst
        = ["/etc/systemd/system/cron-3f2a9c0d5e7b.service".toList,
            "/etc/systemd/system/cron-3f2a9c0d5e7b.timer".toList] ∧
      (main demoEnv ["-f".toList, "mixed".toList, "--reload".toList] []).trace.countP
        Event.isWrite = 2) ∧
    (exitCode
        (main demoDiskFull ["-f".toList, "mixed".toList, "--reload".toList] []).outcome = 1 ∧
      (∀ ev ∈ (main demoDiskFull ["-f".toList, "mixed".toList, "--reload".toList] []).trace,
        ev.isManager = false) ∧
      writeCalls (main demoDiskFull ["-f".toList, "mixed".toList, "--reload".toList] []).trace
        <+: ["/etc/systemd/system/cron-3f2a9c0d5e7b.service".toList,
            "/etc/systemd/system/cron-3f2a9c0d5e7b.timer".toList]) :=
  have h1 := main_conversion_failure demoEnv ["-f".toList, "mixed".toList, "--reload".toList]
    ⟨[], "mixed".toList, "/etc/systemd/system".toList, true⟩ demoMixed
    [demoReport] demoBoth [demoBackup]
    "cannot convert: day of month and day of week are both set".toList
    ⟨rfl, by decide, by decide, rfl, rfl, rfl⟩ (by decide)
    (by intro p hp; rw [List.mem_singleton] at hp; subst hp; exact ⟨_, rfl⟩) rfl
  have h2 := main_conversion_failure demoDiskFull
    ["-f".toList, "mixed".toList, "--reload".toList]
    ⟨[], "mixed".toList, "/etc/systemd/system".toList, true⟩ demoMixed
    [demoReport] demoBoth [demoBackup]
    "cannot convert: day of month and day of week are both set".toList
    ⟨rfl, by decide, by decide, rfl, rfl, rfl⟩ (by decide)
    (by intro p hp; rw [List.mem_singleton] at hp; subst hp; exact ⟨_, rfl⟩) rfl
  have hall : ∀ ev ∈ (main demoEnv ["-f".toList, "mixed".toList, "--reload".toList] []).trace,
      ev.failed = true → ev = Event.convert
        (.err "cannot convert: day of month and day of week are both set".toList) := by
    decide
  have h3 := h1.2.2.2.2 (fun ev hev hf => ⟨_, hall ev hev hf⟩)
  ⟨⟨h1.1, h1.2.1, h3.1, h3.2⟩, ⟨h2.1, h2.2.1, h2.2.2.1⟩⟩

end Ct2stimer
